import Mathlib

/-!
# Sell-side TWAP level provider (stellar/kelp, `plugins/sellTwapLevelProvider.go`)

A shallow embedding of the provider's factory (`makeSellTwapLevelProvider`), of the
bucket scheduler (`makeBucketInfo`, `floorDate`, `ceilDate`) and of `GetLevels`, together
with the parts of the Go runtime they rely on:

* `float64` values and the operations the code applies to them (comparison with a
  constant, conversion from an integer, division, `math.Ceil`, conversion to `int64`);
* the calendar arithmetic of the Go `time` package for UTC instants (`Year`, `Month`,
  `Day`, `Weekday`, `Unix`, `time.Date`);
* `fmt.Errorf`, recorded as the format string together with the arguments passed.

Logging (`log.Printf`) is not modelled: it does not influence any returned value.
-/

namespace Kelp

/-! ## float64 -/

/-- A Go `float64` value: not-a-number, the two infinities, or a finite number. The two
signed zeros are identified (they compare equal and the code never divides by a float
zero that could be negative). -/
inductive Float64
  | nan
  | posInf
  | negInf
  | finite (q : ℚ)
  deriving DecidableEq

namespace Float64

/-- Go `a < b` on `float64`: false as soon as one operand is NaN. -/
def lt : Float64 → Float64 → Bool
  | nan, _ => false
  | _, nan => false
  | posInf, _ => false
  | negInf, negInf => false
  | negInf, _ => true
  | finite _, negInf => false
  | finite _, posInf => true
  | finite a, finite b => decide (a < b)

/-- Go `a > b` on `float64`. -/
def gt (a b : Float64) : Bool := lt b a

/-- Round to the nearest integer, ties to the even one. -/
def roundHalfEven (x : ℚ) : ℤ :=
  let f := ⌊x⌋
  let r := x - f
  if r < 1 / 2 then f
  else if 1 / 2 < r then f + 1
  else if f % 2 = 0 then f else f + 1

/-- IEEE 754 binary64 rounding (round to nearest, ties to even) of an exact rational:
53 significant bits, minimum exponent -1022 (below it the spacing stays 2^-1074),
overflow to infinity from 2^1024 on. -/
def round (x : ℚ) : Float64 :=
  if x = 0 then finite 0
  else
    let a := |x|
    let e := max (Int.log 2 a) (-1022)
    let ulp : ℚ := (2 : ℚ) ^ (e - 52)
    let r : ℚ := (roundHalfEven (a / ulp) : ℚ) * ulp
    if (2 : ℚ) ^ (1024 : ℕ) ≤ r then (if 0 < x then posInf else negInf)
    else finite (if 0 < x then r else -r)

/-- The value of `round x` for a positive `x` that does not overflow: the rounded
significand times the spacing. -/
def nearest (x : ℚ) : ℚ :=
  (roundHalfEven (x / (2 : ℚ) ^ (max (Int.log 2 x) (-1022) - 52)) : ℚ) *
    (2 : ℚ) ^ (max (Int.log 2 x) (-1022) - 52)

/-- Go conversion `float64(n)` of an integer. -/
def ofInt (n : ℤ) : Float64 := round (n : ℚ)

/-- Go `a / b` on `float64`. -/
def div : Float64 → Float64 → Float64
  | nan, _ => nan
  | _, nan => nan
  | posInf, finite b => if b < 0 then negInf else posInf
  | negInf, finite b => if b < 0 then posInf else negInf
  | posInf, _ => nan
  | negInf, _ => nan
  | finite _, posInf => finite 0
  | finite _, negInf => finite 0
  | finite a, finite b =>
    if b = 0 then (if a = 0 then nan else if 0 < a then posInf else negInf)
    else round (a / b)

/-- Go `math.Ceil`. -/
def ceil : Float64 → Float64
  | finite a => finite (⌈a⌉ : ℤ)
  | x => x

/-- The least `int64`. -/
def minInt64 : ℤ := -(2 : ℤ) ^ 63

/-- Go conversion `int64(x)`: truncation toward zero. Where the value does not fit the
result is implementation-specific; the value produced on amd64 is taken. -/
def toInt64 : Float64 → ℤ
  | finite a =>
    let t : ℤ := if 0 ≤ a then ⌊a⌋ else ⌈a⌉
    if minInt64 ≤ t ∧ t < (2 : ℤ) ^ 63 then t else minInt64
  | _ => minInt64

end Float64

/-! ## Errors -/

/-- An argument passed to `fmt.Errorf`. -/
inductive FmtArg
  | int (v : ℤ)
  | float (v : Float64)
  | str (s : String)
  deriving DecidableEq

/-- A Go `error` value built by `fmt.Errorf`: the format string and the arguments, or a
format string whose single `%s` argument is another error. -/
inductive GoError
  | errorf (format : String) (args : List FmtArg)
  | wrap (format : String) (cause : GoError)
  deriving DecidableEq

/-! ## Volume filters -/

/-- Modelled from the spec: the type `volumeFilter` (declared outside the files at hand),
as far as the provider uses it: a human-readable configuration descriptor (the field
`configValue`), the predicate reporting the selling-base-asset mode (`isSellingBase()`)
and the accessor resolving the base-asset cap, which may fail
(`mustGetBaseAssetCapInBaseUnits()`, a `float64` and an `error`, `none` standing for
`nil`). -/
structure volumeFilter where
  configValue : String
  isSellingBase : Bool
  mustGetBaseAssetCapInBaseUnits : Float64 × Option GoError
  deriving DecidableEq

/-- The Go array type `[7]volumeFilter`. -/
structure DowFilter where
  elems : List volumeFilter
  size_eq : elems.length = 7

/-! ## The provider and its factory -/

/-- The constant `secondsInDay = 24 * 60 * 60`. -/
def secondsInDay : ℤ := 24 * 60 * 60

/-- The struct `sellTwapLevelProvider`; the types of the price feed, of the rate offset
and of the order constraints are parameters. -/
structure sellTwapLevelProvider (PF RO OC : Type) where
  startPf : PF
  offset : RO
  orderConstraints : OC
  dowFilter : DowFilter
  numHoursToSell : ℤ
  parentBucketSizeSeconds : ℤ
  distributeSurplusOverRemainingIntervalsPercentCeiling : Float64
  exponentialSmoothingFactor : Float64
  minChildOrderSizePercentOfParent : Float64

/-- The loop `for i, f := range dowFilter` of the factory, from index `i` on: the error
of the first filter that is not selling the base asset, if there is one. -/
def checkDowFilter : List volumeFilter → ℕ → Option GoError
  | [], _ => none
  | f :: fs, i =>
    if !f.isSellingBase then
      some (GoError.errorf
        "volume filter at index %d was not selling the base asset as expected: %s"
        [FmtArg.int i, FmtArg.str f.configValue])
    else checkDowFilter fs (i + 1)

/-- The factory `makeSellTwapLevelProvider`; the result is the Go pair
`(api.LevelProvider, error)` with `none` standing for `nil`. -/
def makeSellTwapLevelProvider {PF RO OC : Type}
    (startPf : PF) (offset : RO) (orderConstraints : OC) (dowFilter : DowFilter)
    (numHoursToSell : ℤ) (parentBucketSizeSeconds : ℤ)
    (distributeSurplusOverRemainingIntervalsPercentCeiling : Float64)
    (exponentialSmoothingFactor : Float64)
    (minChildOrderSizePercentOfParent : Float64) :
    Option (sellTwapLevelProvider PF RO OC) × Option GoError :=
  if numHoursToSell ≤ 0 ∨ numHoursToSell > 24 then
    (none, some (GoError.errorf
      "invalid number of hours to sell, expected 0 < numHoursToSell <= 24; was %d"
      [FmtArg.int numHoursToSell]))
  else if parentBucketSizeSeconds ≤ 0 ∨ parentBucketSizeSeconds > secondsInDay then
    (none, some (GoError.errorf
      "invalid value for parentBucketSizeSeconds, expected 0 < parentBucketSizeSeconds <= %d (secondsInDay); was %d"
      [FmtArg.int secondsInDay, FmtArg.int parentBucketSizeSeconds]))
  else if Int.tmod secondsInDay parentBucketSizeSeconds ≠ 0 then
    (none, some (GoError.errorf
      "parentBucketSizeSeconds needs to perfectly divide secondsInDay but it does not; secondsInDay is %d and parentBucketSizeSeconds was %d"
      [FmtArg.int secondsInDay, FmtArg.int parentBucketSizeSeconds]))
  else if Float64.lt distributeSurplusOverRemainingIntervalsPercentCeiling (Float64.finite 0)
      || Float64.gt distributeSurplusOverRemainingIntervalsPercentCeiling (Float64.finite 1) then
    (none, some (GoError.errorf
      "distributeSurplusOverRemainingIntervalsPercentCeiling is invalid, expected 0.0 <= distributeSurplusOverRemainingIntervalsPercentCeiling <= 1.0; was %.f"
      [FmtArg.float distributeSurplusOverRemainingIntervalsPercentCeiling]))
  else if Float64.lt exponentialSmoothingFactor (Float64.finite 0)
      || Float64.gt exponentialSmoothingFactor (Float64.finite 1) then
    (none, some (GoError.errorf
      "exponentialSmoothingFactor is invalid, expected 0.0 <= exponentialSmoothingFactor <= 1.0; was %.f"
      [FmtArg.float exponentialSmoothingFactor]))
  else if Float64.lt minChildOrderSizePercentOfParent (Float64.finite 0)
      || Float64.gt minChildOrderSizePercentOfParent (Float64.finite 1) then
    (none, some (GoError.errorf
      "minChildOrderSizePercentOfParent is invalid, expected 0.0 <= minChildOrderSizePercentOfParent <= 1.0; was %.f"
      [FmtArg.float exponentialSmoothingFactor]))
  else
    match checkDowFilter dowFilter.elems 0 with
    | some e => (none, some e)
    | none =>
      (some
        { startPf := startPf
          offset := offset
          orderConstraints := orderConstraints
          dowFilter := dowFilter
          numHoursToSell := numHoursToSell
          parentBucketSizeSeconds := parentBucketSizeSeconds
          distributeSurplusOverRemainingIntervalsPercentCeiling :=
            distributeSurplusOverRemainingIntervalsPercentCeiling
          exponentialSmoothingFactor := exponentialSmoothingFactor
          minChildOrderSizePercentOfParent := minChildOrderSizePercentOfParent },
        none)

/-! ## The Go `time` package, for UTC instants -/

/-- A `time.Time` in UTC: the seconds elapsed since the absolute epoch of the `time`
package (1 January of the year -292277022399, the origin of `Time.abs`) and the
nanoseconds within the second. Wraparound of the 64-bit second counters is not
modelled. -/
structure Time where
  abs : ℕ
  nsec : ℕ
  deriving DecidableEq

def secondsPerDay : ℕ := 86400
def secondsPerWeek : ℕ := 7 * secondsPerDay
def daysPer400Years : ℕ := 365 * 400 + 97
def daysPer100Years : ℕ := 365 * 100 + 24
def daysPer4Years : ℕ := 365 * 4 + 1
def absoluteZeroYear : ℤ := -292277022399

/-- The constant `unixToInternal + internalToAbsolute`. -/
def unixToAbsolute : ℤ := 62135596800 + 292277022400 * 31556952

/-- The table `daysBefore`: the days of a non-leap year before the month starts. -/
def daysBefore (m : ℕ) : ℕ :=
  [0, 31, 59, 90, 120, 151, 181, 212, 243, 273, 304, 334, 365].getD m 0

/-- Go `isLeap`. -/
def isLeap (year : ℤ) : Bool :=
  Int.tmod year 4 = 0 ∧ (Int.tmod year 100 ≠ 0 ∨ Int.tmod year 400 = 0)

/-- Go `absDate(abs, false)`: the year and the day within the year (from 0). -/
def absYday (abs : ℕ) : ℤ × ℕ :=
  let d := abs / secondsPerDay
  let n := d / daysPer400Years
  let y := 400 * n
  let d := d - daysPer400Years * n
  let n := d / daysPer100Years
  let n := n - n >>> 2
  let y := y + 100 * n
  let d := d - daysPer100Years * n
  let n := d / daysPer4Years
  let y := y + 4 * n
  let d := d - daysPer4Years * n
  let n := d / 365
  let n := n - n >>> 2
  let y := y + n
  let d := d - 365 * n
  ((y : ℤ) + absoluteZeroYear, d)

/-- The second half of Go `absDate` (`full == true`): month (January = 1) and day of
the month from the day within the year, `leap` being `isLeap(year)`. -/
def ydayMonthDay (leap : Bool) (yday : ℕ) : ℕ × ℕ :=
  if leap ∧ yday = 31 + 29 - 1 then (2, 29)
  else
    let day := if leap ∧ yday > 31 + 29 - 1 then yday - 1 else yday
    let month := day / 31
    let stop := daysBefore (month + 1)
    if day ≥ stop then (month + 2, day - stop + 1)
    else (month + 1, day - daysBefore month + 1)

/-- Go `absDate(abs, true)`: year, month and day of the month. -/
def absDate (abs : ℕ) : ℤ × ℕ × ℕ :=
  let (year, yday) := absYday abs
  let (month, day) := ydayMonthDay (isLeap year) yday
  (year, month, day)

/-- Go `daysSinceEpoch`: the days from the absolute epoch to the start of the year. -/
def daysSinceEpoch (year : ℤ) : ℕ :=
  let y : ℕ := (year - absoluteZeroYear).toNat
  let n := y / 400
  let y := y - 400 * n
  let d := daysPer400Years * n
  let n := y / 100
  let y := y - 100 * n
  let d := d + daysPer100Years * n
  let n := y / 4
  let y := y - 4 * n
  let d := d + daysPer4Years * n
  let n := y
  let d := d + 365 * n
  d

/-- Go `norm(hi, lo, base)`. -/
def norm (hi lo base : ℤ) : ℤ × ℤ :=
  let (hi, lo) :=
    if lo < 0 then
      let n := Int.tdiv (-lo - 1) base + 1
      (hi - n, lo + n * base)
    else (hi, lo)
  if lo ≥ base then
    let n := Int.tdiv lo base
    (hi + n, lo - n * base)
  else (hi, lo)

/-- Go `time.Date(year, month, day, 0, 0, 0, 0, time.UTC)`: the normalisations of the
nanoseconds, seconds, minutes and hours leave the zero arguments as they are, and the
conversion `uint64(day - 1)` is an addition of `day - 1`. -/
def Date (year month day : ℤ) : Time :=
  let m := month - 1
  let (year, m) := norm year m 12
  let month := m + 1
  let d := daysSinceEpoch year
  let d := d + daysBefore (month - 1).toNat
  let d := if isLeap year ∧ month ≥ 3 then d + 1 else d
  let d : ℤ := (d : ℤ) + (day - 1)
  let abs := d * secondsPerDay
  { abs := abs.toNat, nsec := 0 }

namespace Time

/-- Go `t.Unix()`. -/
def Unix (t : Time) : ℤ := (t.abs : ℤ) - unixToAbsolute

/-- Go `t.Year()`. -/
def Year (t : Time) : ℤ := (absDate t.abs).1

/-- Go `t.Month()`. -/
def Month (t : Time) : ℕ := (absDate t.abs).2.1

/-- Go `t.Day()`. -/
def Day (t : Time) : ℕ := (absDate t.abs).2.2

/-- Go `t.Weekday()` (`absWeekday`): Sunday = 0, ..., Saturday = 6; the absolute epoch
is a Monday. -/
def Weekday (t : Time) : ℕ := (t.abs + 1 * secondsPerDay) % secondsPerWeek / secondsPerDay

/-- Go `t.Clock()` (`absClock`): hour, minute and second within the day. -/
def Clock (t : Time) : ℕ × ℕ × ℕ :=
  let sec := t.abs % secondsPerDay
  let hour := sec / 3600
  let sec := sec - hour * 3600
  let min := sec / 60
  let sec := sec - min * 60
  (hour, min, sec)

end Time

/-- The function `floorDate`, for a UTC instant. -/
def floorDate (t : Time) : Time := Date t.Year t.Month t.Day

/-- The function `ceilDate`, for a UTC instant. -/
def ceilDate (t : Time) : Time := Date t.Year t.Month (t.Day + 1)

/-! ## Bucket scheduling -/

/-- The struct `bucketInfo`. -/
structure bucketInfo where
  ID : ℤ
  totalBuckets : ℤ
  now : Time
  secondsElapsed : ℤ
  volFilter : volumeFilter
  dailyLimit : Float64
  deriving DecidableEq

/-- The result of running a Go function: a run-time panic or the returned value. -/
inductive Outcome (α : Type)
  | panic
  | ret (a : α)

/-- The method `makeBucketInfo`. It panics when the weekday index is out of range or
when the integer division by the bucket size divides by zero. -/
def makeBucketInfo {PF RO OC : Type} (p : sellTwapLevelProvider PF RO OC) (now : Time) :
    Outcome (Option bucketInfo × Option GoError) :=
  match p.dowFilter.elems[now.Weekday]? with
  | none => Outcome.panic
  | some volumeFilter =>
    match volumeFilter.mustGetBaseAssetCapInBaseUnits with
    | (_, some e) =>
      Outcome.ret (none,
        some (GoError.wrap "could not fetch base asset cap in base units: %s" e))
    | (dailyLimit, none) =>
      let dayStartTime := floorDate now
      let dayEndTime := ceilDate now
      let secondsToday := dayEndTime.Unix - dayStartTime.Unix
      let totalBuckets := Float64.toInt64 (Float64.ceil
        (Float64.div (Float64.ofInt secondsToday) (Float64.ofInt p.parentBucketSizeSeconds)))
      let secondsElapsed := now.Unix - dayStartTime.Unix
      if p.parentBucketSizeSeconds = 0 then Outcome.panic
      else
        let bucketIdx := Int.tdiv secondsElapsed p.parentBucketSizeSeconds
        Outcome.ret (some
          { ID := bucketIdx
            totalBuckets := totalBuckets
            now := now
            secondsElapsed := secondsElapsed
            volFilter := volumeFilter
            dailyLimit := dailyLimit },
          none)

/-- Modelled from the spec: the type `api.Level` (declared outside the files at hand), a
(price, amount) sell level. -/
structure Level where
  Price : Float64
  Amount : Float64
  deriving DecidableEq

/-- The method `GetLevels`, with the instant read from `time.Now().UTC()` as the
argument `now`. The slice returned is `none` for `nil`. -/
def GetLevels {PF RO OC : Type} (p : sellTwapLevelProvider PF RO OC) (now : Time)
    (_maxAssetBase : Float64) (_maxAssetQuote : Float64) :
    Outcome (Option (List Level) × Option GoError) :=
  match makeBucketInfo p now with
  | Outcome.panic => Outcome.panic
  | Outcome.ret (_, some e) =>
    Outcome.ret (none, some (GoError.wrap "unable to make bucketInfo: %s" e))
  | Outcome.ret (_, none) => Outcome.ret (some [], none)

/-! ## Statements of the specification -/

/-- The range `0.0 ≤ x ≤ 1.0` the specification asks of each fraction. -/
def Float64.inUnitRange : Float64 → Bool
  | Float64.finite q => decide (0 ≤ q ∧ q ≤ 1)
  | _ => false

/-- The range test as the factory writes it: neither `x < 0.0` nor `x > 1.0`. -/
def Float64.passesRangeCheck (x : Float64) : Bool :=
  !(Float64.lt x (Float64.finite 0) || Float64.gt x (Float64.finite 1))

/-- A filter selling the base asset with a cap of 1000 base units. -/
def sellingFilter : volumeFilter where
  configValue := "volume/daily/sell/base/1000/exact"
  isSellingBase := true
  mustGetBaseAssetCapInBaseUnits := (Float64.finite 1000, none)

/-- Seven filters that all sell the base asset, each with a cap of 1000. -/
def sellingWeek : DowFilter where
  elems := List.replicate 7 sellingFilter
  size_eq := rfl

/-- The provider the factory builds for hourly buckets over `sellingWeek`. -/
def hourlyProvider : sellTwapLevelProvider Unit Unit Unit where
  startPf := ()
  offset := ()
  orderConstraints := ()
  dowFilter := sellingWeek
  numHoursToSell := 24
  parentBucketSizeSeconds := 3600
  distributeSurplusOverRemainingIntervalsPercentCeiling := Float64.finite 0
  exponentialSmoothingFactor := Float64.finite (1 / 2)
  minChildOrderSizePercentOfParent := Float64.finite 1

/-- A provider value whose bucket size, 7 seconds, does not divide the day. -/
def sevenSecondProvider : sellTwapLevelProvider Unit Unit Unit where
  startPf := ()
  offset := ()
  orderConstraints := ()
  dowFilter := sellingWeek
  numHoursToSell := 24
  parentBucketSizeSeconds := 7
  distributeSurplusOverRemainingIntervalsPercentCeiling := Float64.finite 0
  exponentialSmoothingFactor := Float64.finite (1 / 2)
  minChildOrderSizePercentOfParent := Float64.finite 1

/-- The instant 2020-01-01 02:30:00 UTC (Unix time 1577845800). -/
def t0230 : Time where
  abs := 9223372028715321600 + 1577845800
  nsec := 0

/-- The instant 2020-01-01 23:59:59 UTC (Unix time 1577923199). -/
def t2359 : Time where
  abs := 9223372028715321600 + 1577923199
  nsec := 0

/-- The instant 2019-12-31 23:59:59 UTC (Unix time 1577836799), in the last second of a
year. -/
def tYearEnd : Time where
  abs := 9223372028715321600 + 1577836799
  nsec := 0

/-- A week whose Tuesday filter (index 2) is the first one not selling the base asset. -/
def tuesdayBuying : DowFilter where
  elems :=
    [ ⟨"sun", true, (Float64.finite 1000, none)⟩,
      ⟨"mon", true, (Float64.finite 1000, none)⟩,
      ⟨"tue", false, (Float64.finite 1000, none)⟩,
      ⟨"wed", true, (Float64.finite 1000, none)⟩,
      ⟨"thu", false, (Float64.finite 1000, none)⟩,
      ⟨"fri", true, (Float64.finite 1000, none)⟩,
      ⟨"sat", true, (Float64.finite 1000, none)⟩ ]
  size_eq := rfl

/-- Go `a + b` on `float64`. -/
def Float64.add : Float64 → Float64 → Float64
  | Float64.nan, _ => Float64.nan
  | _, Float64.nan => Float64.nan
  | Float64.posInf, Float64.negInf => Float64.nan
  | Float64.negInf, Float64.posInf => Float64.nan
  | Float64.posInf, _ => Float64.posInf
  | Float64.negInf, _ => Float64.negInf
  | Float64.finite _, Float64.posInf => Float64.posInf
  | Float64.finite _, Float64.negInf => Float64.negInf
  | Float64.finite a, Float64.finite b => Float64.round (a + b)

/-- The total amount of a list of levels: the amounts added up from 0.0, in order. -/
def totalAmount (levels : List Level) : Float64 :=
  levels.foldl (fun acc l => Float64.add acc l.Amount) (Float64.finite 0)

/-- The method `makeBucketInfo` as a step on the receiver with the world outside the
provider explicit. `capLookup f` is what the call `f.mustGetBaseAssetCapInBaseUnits()`
returns during this evaluation (the cap is resolved against the market data of the
moment), and the first component of the result is the receiver `*p` as the call leaves
it. -/
def makeBucketInfoStep {PF RO OC : Type}
    (capLookup : volumeFilter → Float64 × Option GoError)
    (p : sellTwapLevelProvider PF RO OC) (now : Time) :
    sellTwapLevelProvider PF RO OC × Outcome (Option bucketInfo × Option GoError) :=
  match p.dowFilter.elems[now.Weekday]? with
  | none => (p, Outcome.panic)
  | some volumeFilter =>
    match capLookup volumeFilter with
    | (_, some e) =>
      (p, Outcome.ret (none,
        some (GoError.wrap "could not fetch base asset cap in base units: %s" e)))
    | (dailyLimit, none) =>
      let dayStartTime := floorDate now
      let dayEndTime := ceilDate now
      let secondsToday := dayEndTime.Unix - dayStartTime.Unix
      let totalBuckets := Float64.toInt64 (Float64.ceil
        (Float64.div (Float64.ofInt secondsToday) (Float64.ofInt p.parentBucketSizeSeconds)))
      let secondsElapsed := now.Unix - dayStartTime.Unix
      if p.parentBucketSizeSeconds = 0 then (p, Outcome.panic)
      else
        let bucketIdx := Int.tdiv secondsElapsed p.parentBucketSizeSeconds
        (p, Outcome.ret (some
          { ID := bucketIdx
            totalBuckets := totalBuckets
            now := now
            secondsElapsed := secondsElapsed
            volFilter := volumeFilter
            dailyLimit := dailyLimit },
          none))

/-- The method `GetLevels` as a step on the receiver, as `makeBucketInfoStep`: the receiver
is the one the call of `makeBucketInfo` leaves. -/
def GetLevelsStep {PF RO OC : Type}
    (capLookup : volumeFilter → Float64 × Option GoError)
    (p : sellTwapLevelProvider PF RO OC) (now : Time)
    (_maxAssetBase : Float64) (_maxAssetQuote : Float64) :
    sellTwapLevelProvider PF RO OC × Outcome (Option (List Level) × Option GoError) :=
  match makeBucketInfoStep capLookup p now with
  | (p, Outcome.panic) => (p, Outcome.panic)
  | (p, Outcome.ret (_, some e)) =>
    (p, Outcome.ret (none, some (GoError.wrap "unable to make bucketInfo: %s" e)))
  | (p, Outcome.ret (_, none)) => (p, Outcome.ret (some [], none))

/-- The cap lookup that answers with the response recorded in the filter. -/
def recordedLookup (f : volumeFilter) : Float64 × Option GoError :=
  f.mustGetBaseAssetCapInBaseUnits

/-- A cap lookup during an outage of the market data: it answers as recorded for
`sellingFilter` and fails for every other filter. -/
def outageLookup (f : volumeFilter) : Float64 × Option GoError :=
  if f = sellingFilter then f.mustGetBaseAssetCapInBaseUnits
  else (Float64.finite 0, some (GoError.errorf "market data unavailable" []))

/-- The instant 1970-01-04 00:00:00 UTC (Unix time 259200), a Sunday. -/
def tSunday : Time where
  abs := 9223372028715321600 + 259200
  nsec := 0

/-- A provider with hourly buckets whose filters differ from one weekday to the next; the
filter of Wednesday (index 3) is `sellingFilter`. -/
def otherHourlyProvider : sellTwapLevelProvider Unit Unit Unit where
  startPf := ()
  offset := ()
  orderConstraints := ()
  dowFilter :=
    { elems :=
        [ ⟨"sun", true, (Float64.finite 1, none)⟩,
          ⟨"mon", true, (Float64.finite 2, none)⟩,
          ⟨"tue", true, (Float64.finite 3, none)⟩,
          sellingFilter,
          ⟨"thu", true, (Float64.finite 5, none)⟩,
          ⟨"fri", true, (Float64.finite 6, none)⟩,
          ⟨"sat", true, (Float64.finite 7, none)⟩ ]
      size_eq := rfl }
  numHoursToSell := 12
  parentBucketSizeSeconds := 3600
  distributeSurplusOverRemainingIntervalsPercentCeiling := Float64.finite 1
  exponentialSmoothingFactor := Float64.finite 0
  minChildOrderSizePercentOfParent := Float64.finite (1 / 4)

/-! ## Rounding to binary64 -/

namespace Float64

theorem roundHalfEven_ge (y : ℚ) (k : ℤ) (h : (k : ℚ) ≤ y) : k ≤ roundHalfEven y := by
  have hf : k ≤ ⌊y⌋ := Int.le_floor.2 h
  unfold roundHalfEven
  simp only
  split_ifs <;> omega

theorem roundHalfEven_le (y : ℚ) (k : ℤ) (h : y ≤ (k : ℚ)) : roundHalfEven y ≤ k := by
  have hfl : (⌊y⌋ : ℚ) ≤ y := Int.floor_le y
  by_cases hy : y - (⌊y⌋ : ℚ) < 1 / 2
  · have hf : ⌊y⌋ ≤ k := by exact_mod_cast hfl.trans h
    unfold roundHalfEven
    simp only
    rw [if_pos hy]
    exact hf
  · have hlt : (⌊y⌋ : ℚ) < (k : ℚ) := by linarith
    have hf : ⌊y⌋ < k := by exact_mod_cast hlt
    unfold roundHalfEven
    simp only
    split_ifs <;> omega

theorem nearest_grid (x : ℚ) (k i : ℤ) (hi : max (Int.log 2 x) (-1022) - 52 ≤ i) :
    ((k : ℚ) * (2 : ℚ) ^ i ≤ x → (k : ℚ) * (2 : ℚ) ^ i ≤ nearest x) ∧
    (x ≤ (k : ℚ) * (2 : ℚ) ^ i → nearest x ≤ (k : ℚ) * (2 : ℚ) ^ i) := by
  set e := max (Int.log 2 x) (-1022) with he
  have hu : (0 : ℚ) < (2 : ℚ) ^ (e - 52) := by positivity
  obtain ⟨n, hn⟩ : ∃ n : ℕ, i = (e - 52) + n := ⟨(i - (e - 52)).toNat, by omega⟩
  have hpow : (k : ℚ) * (2 : ℚ) ^ i = ((k * 2 ^ n : ℤ) : ℚ) * (2 : ℚ) ^ (e - 52) := by
    rw [hn, zpow_add₀ (by norm_num), zpow_natCast]
    push_cast
    ring
  rw [hpow]
  unfold nearest
  rw [← he]
  constructor
  · intro h
    have h1 : ((k * 2 ^ n : ℤ) : ℚ) ≤ x / (2 : ℚ) ^ (e - 52) := by
      rw [le_div_iff₀ hu]
      exact h
    have h2 := roundHalfEven_ge _ _ h1
    have h3 : ((k * 2 ^ n : ℤ) : ℚ) ≤ (roundHalfEven (x / (2 : ℚ) ^ (e - 52)) : ℚ) := by
      exact_mod_cast h2
    exact mul_le_mul_of_nonneg_right h3 hu.le
  · intro h
    have h1 : x / (2 : ℚ) ^ (e - 52) ≤ ((k * 2 ^ n : ℤ) : ℚ) := by
      rw [div_le_iff₀ hu]
      exact h
    have h2 := roundHalfEven_le _ _ h1
    have h3 : (roundHalfEven (x / (2 : ℚ) ^ (e - 52)) : ℚ) ≤ ((k * 2 ^ n : ℤ) : ℚ) := by
      exact_mod_cast h2
    exact mul_le_mul_of_nonneg_right h3 hu.le

theorem round_of_pos (x : ℚ) (hx : 0 < x) (h : nearest x < (2 : ℚ) ^ (1024 : ℕ)) :
    round x = finite (nearest x) := by
  unfold round
  rw [if_neg hx.ne', abs_of_pos hx]
  simp only
  unfold nearest at h
  rw [if_neg (not_le.2 h), if_pos hx]
  rfl

theorem log_le_of_le_zpow (x : ℚ) (hx : 0 < x) (z : ℤ) (h : x ≤ (2 : ℚ) ^ z) :
    Int.log 2 x ≤ z := by
  have := Int.log_mono_right (b := 2) hx h
  have h2 : Int.log 2 ((2 : ℚ) ^ z) = z := by
    have := Int.log_zpow (R := ℚ) (b := 2) (by norm_num) z
    simpa using this
  rw [h2] at this
  exact this

/-- Rounding a positive rational that does not exceed `2^63` gives a finite value, and
the rounding does not cross any multiple `k * 2^i` of a power of two that is coarse
enough to belong to the grid around `x`. -/
theorem round_spec (x : ℚ) (hx : 0 < x) (hhi : x ≤ (2 : ℚ) ^ (63 : ℤ)) :
    round x = finite (nearest x) ∧
    ∀ k i : ℤ, Int.log 2 x - 52 ≤ i → -1074 ≤ i →
      ((k : ℚ) * (2 : ℚ) ^ i ≤ x → (k : ℚ) * (2 : ℚ) ^ i ≤ nearest x) ∧
      (x ≤ (k : ℚ) * (2 : ℚ) ^ i → nearest x ≤ (k : ℚ) * (2 : ℚ) ^ i) := by
  have hlog : Int.log 2 x ≤ 63 := log_le_of_le_zpow x hx 63 hhi
  have hgrid : ∀ k i : ℤ, Int.log 2 x - 52 ≤ i → -1074 ≤ i →
      ((k : ℚ) * (2 : ℚ) ^ i ≤ x → (k : ℚ) * (2 : ℚ) ^ i ≤ nearest x) ∧
      (x ≤ (k : ℚ) * (2 : ℚ) ^ i → nearest x ≤ (k : ℚ) * (2 : ℚ) ^ i) := by
    intro k i h1 h2
    apply nearest_grid
    rcases max_cases (Int.log 2 x) (-1022) with ⟨h, _⟩ | ⟨h, _⟩ <;> rw [h] <;> omega
  refine ⟨?_, hgrid⟩
  apply round_of_pos x hx
  have h63 := (hgrid 1 63 (by omega) (by omega)).2 (by simpa using hhi)
  calc nearest x ≤ (1 : ℤ) * (2 : ℚ) ^ (63 : ℤ) := h63
    _ < (2 : ℚ) ^ (1024 : ℕ) := by norm_num

theorem log_lt_of_lt_zpow (x : ℚ) (hx : 0 < x) (z : ℤ) (h : x < (2 : ℚ) ^ z) :
    Int.log 2 x < z := by
  have := (Int.lt_zpow_iff_log_lt (R := ℚ) (b := 2) (by norm_num) (x := z) hx).1
    (by simpa using h)
  exact this

/-- Conversion of a positive `int64` to `float64`: exact below `2^53`, and in any case
between `2^53` and `2^63` from `2^53` on. -/
theorem ofInt_pos (p : ℤ) (hp : 1 ≤ p) (hmax : p < 2 ^ 63) :
    ∃ v : ℚ, ofInt p = finite v ∧ (p < 2 ^ 53 → v = p) ∧
      (2 ^ 53 ≤ p → (2 : ℚ) ^ (53 : ℤ) ≤ v) ∧ v ≤ (2 : ℚ) ^ (63 : ℤ) := by
  have hx : (0 : ℚ) < (p : ℚ) := by exact_mod_cast hp
  have hhi : (p : ℚ) ≤ (2 : ℚ) ^ (63 : ℤ) := by
    have : (p : ℚ) ≤ ((2 ^ 63 : ℤ) : ℚ) := by exact_mod_cast hmax.le
    exact le_trans this (le_of_eq (by norm_num))
  obtain ⟨hr, hgrid⟩ := round_spec (p : ℚ) hx hhi
  have hlog : Int.log 2 (p : ℚ) ≤ 63 := log_le_of_le_zpow _ hx 63 hhi
  refine ⟨nearest (p : ℚ), hr, ?_, ?_, ?_⟩
  · intro hsmall
    have hlt : (p : ℚ) < (2 : ℚ) ^ (53 : ℤ) := by
      have : (p : ℚ) < ((2 ^ 53 : ℤ) : ℚ) := by exact_mod_cast hsmall
      exact lt_of_lt_of_le this (le_of_eq (by norm_num))
    have hl := log_lt_of_lt_zpow _ hx 53 hlt
    have g := hgrid p 0 (by omega) (by omega)
    simp only [zpow_zero, mul_one] at g
    exact le_antisymm (g.2 le_rfl) (g.1 le_rfl)
  · intro hbig
    have g := (hgrid 1 53 (by omega) (by omega)).1
    simp only [Int.cast_one, one_mul] at g
    apply g
    have : ((2 ^ 53 : ℤ) : ℚ) ≤ (p : ℚ) := by exact_mod_cast hbig
    exact le_trans (le_of_eq (by norm_num)) this
  · have g := (hgrid 1 63 (by omega) (by omega)).2
    simp only [Int.cast_one, one_mul] at g
    exact g hhi

theorem toInt64_ceil_finite (r : ℚ) (c : ℤ) (h1 : (c : ℚ) - 1 < r) (h2 : r ≤ (c : ℚ))
    (hc0 : 0 ≤ c) (hc1 : c < 2 ^ 63) : toInt64 (ceil (finite r)) = c := by
  have hc : ⌈r⌉ = c := Int.ceil_eq_iff.2 ⟨h1, h2⟩
  have hnn : (0 : ℚ) ≤ ((c : ℤ) : ℚ) := by exact_mod_cast hc0
  simp only [ceil, toInt64, hc, hnn, if_true, Int.floor_intCast, minInt64]
  rw [if_pos]
  constructor <;> omega

/-- The bucket count as the code computes it in `float64` is the exact ceiling of
`86400 / p`, for every positive `int64` bucket size `p`. -/
theorem toInt64_ceil_div (p : ℤ) (hp : 1 ≤ p) (hmax : p < 2 ^ 63) :
    toInt64 (ceil (div (ofInt 86400) (ofInt p))) = ⌈(86400 : ℚ) / (p : ℚ)⌉ := by
  obtain ⟨v, hv, hsmall, hbig, hle⟩ := ofInt_pos p hp hmax
  obtain ⟨w, hw, hwsmall, -, -⟩ := ofInt_pos 86400 (by norm_num) (by norm_num)
  have hw2 : w = 86400 := by
    have := hwsmall (by norm_num)
    simpa using this
  subst hw2
  have hpq : (1 : ℚ) ≤ (p : ℚ) := by exact_mod_cast hp
  have hv1 : (1 : ℚ) ≤ v := by
    rcases lt_or_le p (2 ^ 53) with h | h
    · rw [hsmall h]; exact hpq
    · exact le_trans (by norm_num) (hbig h)
  have hv0 : (0 : ℚ) < v := by linarith
  have hx : (0 : ℚ) < 86400 / v := by positivity
  have hxle : (86400 : ℚ) / v ≤ 86400 := by
    rw [div_le_iff₀ hv0]
    nlinarith
  have hhi : (86400 : ℚ) / v ≤ (2 : ℚ) ^ (63 : ℤ) := le_trans hxle (by norm_num)
  obtain ⟨hr, hgrid⟩ := round_spec _ hx hhi
  have hlog : Int.log 2 ((86400 : ℚ) / v) < 17 :=
    log_lt_of_lt_zpow _ hx 17 (lt_of_le_of_lt hxle (by norm_num))
  have hdiv : div (ofInt 86400) (ofInt p) = finite (nearest (86400 / v)) := by
    rw [hw, hv]
    simp only [div]
    rw [if_neg hv0.ne', hr]
  rw [hdiv]
  rcases le_or_lt p 86400 with hsm | hlg
  · -- the bucket size is at most a day: the quotient is at least one
    have hvp : v = p := hsmall (by omega)
    subst hvp
    set c := ⌈(86400 : ℚ) / (p : ℚ)⌉ with hcdef
    have hcx : (86400 : ℚ) / (p : ℚ) ≤ (c : ℚ) := Int.le_ceil _
    have hcl : (c : ℚ) - 1 < (86400 : ℚ) / (p : ℚ) := by
      have := Int.ceil_lt_add_one ((86400 : ℚ) / (p : ℚ))
      rw [← hcdef] at this
      linarith
    have hc1 : 1 ≤ c := by
      have : (0 : ℚ) < (c : ℚ) := lt_of_lt_of_le hx hcx
      have : (0 : ℤ) < c := by exact_mod_cast this
      omega
    have hc2 : c ≤ 86400 := by
      rw [hcdef]
      apply Int.ceil_le.2
      simpa using hxle
    -- the product `(c - 1) * p` is an integer below 86400
    have hprod : (c - 1) * p + 1 ≤ 86400 := by
      have h1 : ((c : ℚ) - 1) * (p : ℚ) < 86400 := by
        have := (lt_div_iff₀ hv0).1 hcl
        exact this
      have h2 : (((c - 1) * p : ℤ) : ℚ) < ((86400 : ℤ) : ℚ) := by
        push_cast
        exact h1
      have h3 : (c - 1) * p < 86400 := by exact_mod_cast h2
      omega
    have hlow : (((c - 1) * 2 ^ 17 + 1 : ℤ) : ℚ) * (2 : ℚ) ^ (-17 : ℤ) ≤
        (86400 : ℚ) / (p : ℚ) := by
      rw [le_div_iff₀ hv0]
      have hp2 : (p : ℚ) ≤ 86400 := by exact_mod_cast hsm
      have h4 : (((c - 1) * p + 1 : ℤ) : ℚ) ≤ ((86400 : ℤ) : ℚ) := by exact_mod_cast hprod
      push_cast at h4 ⊢
      have e : ((2 : ℚ) ^ (-17 : ℤ)) = 1 / 131072 := by norm_num
      rw [e]
      nlinarith
    have g1 := (hgrid ((c - 1) * 2 ^ 17 + 1) (-17) (by omega) (by omega)).1 hlow
    have g2 := (hgrid c 0 (by omega) (by omega)).2 (by simpa using hcx)
    simp only [zpow_zero, mul_one] at g2
    apply toInt64_ceil_finite _ c _ g2 (by omega) (by omega)
    have e : ((2 : ℚ) ^ (-17 : ℤ)) = 1 / 131072 := by norm_num
    rw [e] at g1
    push_cast at g1
    linarith
  · -- the bucket size exceeds a day: the quotient lies strictly between 0 and 1
    have hpq2 : (86400 : ℚ) < (p : ℚ) := by exact_mod_cast hlg
    have hv2 : (86400 : ℚ) < v := by
      rcases lt_or_le p (2 ^ 53) with h | h
      · rw [hsmall h]; exact hpq2
      · exact lt_of_lt_of_le (by norm_num) (hbig h)
    have hc : ⌈(86400 : ℚ) / (p : ℚ)⌉ = 1 := by
      apply Int.ceil_eq_iff.2
      constructor
      · have : (0 : ℚ) < 86400 / (p : ℚ) := by positivity
        simpa using this
      · rw [div_le_iff₀ (by linarith)]
        simp only [Int.cast_one, one_mul]
        exact hpq2.le
    rw [hc]
    have hx1 : (86400 : ℚ) / v ≤ 1 := by
      rw [div_le_iff₀ hv0]
      linarith
    have hlog2 : Int.log 2 ((86400 : ℚ) / v) ≤ 0 :=
      log_le_of_le_zpow _ hx 0 (by simpa using hx1)
    have hlow : ((1 : ℤ) : ℚ) * (2 : ℚ) ^ (-47 : ℤ) ≤ (86400 : ℚ) / v := by
      rw [le_div_iff₀ hv0]
      have e : ((2 : ℚ) ^ (-47 : ℤ)) = 1 / 140737488355328 := by norm_num
      have e2 : ((2 : ℚ) ^ (63 : ℤ)) = 9223372036854775808 := by norm_num
      rw [e]
      rw [e2] at hle
      push_cast
      linarith
    have g1 := (hgrid 1 (-47) (by omega) (by omega)).1 hlow
    have g2 := (hgrid 1 0 (by omega) (by omega)).2 (by simpa using hx1)
    simp only [zpow_zero, mul_one, Int.cast_one] at g2
    apply toInt64_ceil_finite _ 1 _ (by simpa using g2) (by norm_num) (by norm_num)
    have e : ((2 : ℚ) ^ (-47 : ℤ)) = 1 / 140737488355328 := by norm_num
    rw [e] at g1
    push_cast at g1
    linarith

end Float64

/-! ## The calendar -/

theorem isLeap_iff (year : ℤ) :
    isLeap year = true ↔ year % 4 = 0 ∧ (year % 100 ≠ 0 ∨ year % 400 = 0) := by
  have h4 : Int.tmod year 4 = 0 ↔ year % 4 = 0 := by
    rw [← Int.dvd_iff_tmod_eq_zero, Int.dvd_iff_emod_eq_zero]
  have h100 : Int.tmod year 100 = 0 ↔ year % 100 = 0 := by
    rw [← Int.dvd_iff_tmod_eq_zero, Int.dvd_iff_emod_eq_zero]
  have h400 : Int.tmod year 400 = 0 ↔ year % 400 = 0 := by
    rw [← Int.dvd_iff_tmod_eq_zero, Int.dvd_iff_emod_eq_zero]
  unfold isLeap
  rw [decide_eq_true_iff, h4, h400, Ne, h100]

/-- Leap years counted from the absolute zero year, which is congruent to 1 modulo 400. -/
theorem isLeap_offset (y : ℕ) :
    isLeap ((y : ℤ) + absoluteZeroYear) = true ↔
      y % 4 = 3 ∧ (y % 100 ≠ 99 ∨ y % 400 = 399) := by
  rw [isLeap_iff]
  simp only [absoluteZeroYear]
  omega

theorem daysSinceEpoch_offset (y : ℕ) :
    daysSinceEpoch ((y : ℤ) + absoluteZeroYear) =
      146097 * (y / 400) + 36524 * (y % 400 / 100) + 1461 * (y % 100 / 4) + 365 * (y % 4) := by
  have h : ((y : ℤ) + absoluteZeroYear - absoluteZeroYear).toNat = y := by simp
  have e1 : daysPer400Years = 146097 := rfl
  have e2 : daysPer100Years = 36524 := rfl
  have e3 : daysPer4Years = 1461 := rfl
  simp only [daysSinceEpoch, h, e1, e2, e3]
  omega

/-- Cutting off the 100-year cycles within a 400-year cycle. -/
theorem cut100 (d1 : ℕ) (h : d1 < 146097) :
    d1 / 36524 - d1 / 36524 / 4 ≤ 3 ∧
    36524 * (d1 / 36524 - d1 / 36524 / 4) ≤ d1 ∧
    (d1 - 36524 * (d1 / 36524 - d1 / 36524 / 4) < 36524 ∨
      (d1 / 36524 - d1 / 36524 / 4 = 3 ∧
        d1 - 36524 * (d1 / 36524 - d1 / 36524 / 4) = 36524)) := by
  omega

/-- Cutting off the 4-year cycles within a 100-year cycle. -/
theorem cut4 (d2 : ℕ) (h : d2 ≤ 36524) :
    d2 / 1461 ≤ 24 ∧ 1461 * (d2 / 1461) ≤ d2 ∧ d2 - 1461 * (d2 / 1461) < 1461 := by
  omega

/-- Cutting off the years within a 4-year cycle. -/
theorem cut1 (d3 : ℕ) (h : d3 < 1461) :
    d3 / 365 - d3 / 365 / 4 ≤ 3 ∧
    365 * (d3 / 365 - d3 / 365 / 4) ≤ d3 ∧
    (d3 - 365 * (d3 / 365 - d3 / 365 / 4) < 365 ∨
      (d3 / 365 - d3 / 365 / 4 = 3 ∧ d3 - 365 * (d3 / 365 - d3 / 365 / 4) = 365)) := by
  omega

/-- The cycle arithmetic of `absDate`: the year counted from the absolute zero year and
the day within the year decompose the day number. -/
theorem absYday_spec (abs : ℕ) :
    ∃ y yday : ℕ, absYday abs = ((y : ℤ) + absoluteZeroYear, yday) ∧
      146097 * (y / 400) + 36524 * (y % 400 / 100) + 1461 * (y % 100 / 4) + 365 * (y % 4)
        + yday = abs / 86400 ∧
      (yday < 365 ∨ (yday = 365 ∧ y % 4 = 3 ∧ (y % 100 ≠ 99 ∨ y % 400 = 399))) := by
  have e0 : secondsPerDay = 86400 := rfl
  have e1 : daysPer400Years = 146097 := rfl
  have e2 : daysPer100Years = 36524 := rfl
  have e3 : daysPer4Years = 1461 := rfl
  have e4 : (2 : ℕ) ^ 2 = 4 := rfl
  refine ⟨_, _, rfl, ?_⟩
  simp only [e0, e1, e2, e3, e4, Nat.shiftRight_eq_div_pow]
  generalize abs / 86400 = D
  have hd1 : D - 146097 * (D / 146097) < 146097 ∧ 146097 * (D / 146097) ≤ D := by omega
  generalize D / 146097 = n400 at hd1 ⊢
  obtain ⟨hd1, hD⟩ := hd1
  obtain ⟨d1, rfl⟩ : ∃ d1, D = 146097 * n400 + d1 := ⟨D - 146097 * n400, by omega⟩
  have e5 : 146097 * n400 + d1 - 146097 * n400 = d1 := by omega
  rw [e5] at hd1 ⊢
  have h100 := cut100 d1 hd1
  generalize d1 / 36524 - d1 / 36524 / 4 = n100 at h100 ⊢
  obtain ⟨hn100, hle2, h100⟩ := h100
  obtain ⟨d2, rfl⟩ : ∃ d2, d1 = 36524 * n100 + d2 := ⟨d1 - 36524 * n100, by omega⟩
  have e6 : 36524 * n100 + d2 - 36524 * n100 = d2 := by omega
  rw [e6] at h100 ⊢
  have h4 := cut4 d2 (by omega)
  generalize d2 / 1461 = n4 at h4 ⊢
  obtain ⟨hn4, hle3, h4⟩ := h4
  obtain ⟨d3, rfl⟩ : ∃ d3, d2 = 1461 * n4 + d3 := ⟨d2 - 1461 * n4, by omega⟩
  have e7 : 1461 * n4 + d3 - 1461 * n4 = d3 := by omega
  rw [e7] at h4 ⊢
  have h1 := cut1 d3 h4
  generalize d3 / 365 - d3 / 365 / 4 = n1 at h1 ⊢
  obtain ⟨hn1, hle4, h1⟩ := h1
  obtain ⟨yd, rfl⟩ : ∃ yd, d3 = 365 * n1 + yd := ⟨d3 - 365 * n1, by omega⟩
  have e8 : 365 * n1 + yd - 365 * n1 = yd := by omega
  rw [e8] at h1 ⊢
  have q1 : (400 * n400 + 100 * n100 + 4 * n4 + n1) / 400 = n400 := by omega
  have q2 : (400 * n400 + 100 * n100 + 4 * n4 + n1) % 400 / 100 = n100 := by omega
  have q3 : (400 * n400 + 100 * n100 + 4 * n4 + n1) % 100 / 4 = n4 := by omega
  have q4 : (400 * n400 + 100 * n100 + 4 * n4 + n1) % 4 = n1 := by omega
  have q5 : (400 * n400 + 100 * n100 + 4 * n4 + n1) % 100 = 4 * n4 + n1 := by omega
  have q6 : (400 * n400 + 100 * n100 + 4 * n4 + n1) % 400 = 100 * n100 + 4 * n4 + n1 := by
    omega
  rw [q1, q2, q3, q4, q5, q6]
  constructor
  · omega
  · omega


set_option maxRecDepth 100000 in
/-- The month and day computed from the day within the year are inverted by the table
`daysBefore` together with the leap-day adjustment of `Date`. -/
theorem ydayMonthDay_spec (leap : Bool) (yday : ℕ)
    (h : yday < 365 ∨ (yday = 365 ∧ leap = true)) :
    1 ≤ (ydayMonthDay leap yday).1 ∧ (ydayMonthDay leap yday).1 ≤ 12 ∧
    1 ≤ (ydayMonthDay leap yday).2 ∧
    daysBefore ((ydayMonthDay leap yday).1 - 1) +
        (if leap = true ∧ (ydayMonthDay leap yday).1 ≥ 3 then 1 else 0) +
        ((ydayMonthDay leap yday).2 - 1) = yday := by
  have key : ∀ l : Bool, ∀ n : Fin 366, (n.val < 365 ∨ (n.val = 365 ∧ l = true)) →
      (1 ≤ (ydayMonthDay l n.val).1 ∧ (ydayMonthDay l n.val).1 ≤ 12 ∧
      1 ≤ (ydayMonthDay l n.val).2 ∧
      daysBefore ((ydayMonthDay l n.val).1 - 1) +
        (if l = true ∧ (ydayMonthDay l n.val).1 ≥ 3 then 1 else 0) +
        ((ydayMonthDay l n.val).2 - 1) = n.val) := by
    decide
  have hlt : yday < 366 := by omega
  exact key leap ⟨yday, hlt⟩ h

theorem norm_month (year m : ℤ) (h1 : 1 ≤ m) (h2 : m ≤ 12) :
    norm year (m - 1) 12 = (year, m - 1) := by
  unfold norm
  have a : ¬ (m - 1 < 0) := by omega
  have b : ¬ (m - 1 ≥ 12) := by omega
  simp only [a, b, if_false]

theorem Date_abs (year m d : ℤ) (h1 : 1 ≤ m) (h2 : m ≤ 12) (hd : 1 ≤ d) :
    ((Date year m d).abs : ℤ) =
      ((daysSinceEpoch year + daysBefore (m - 1).toNat +
        (if isLeap year = true ∧ m ≥ 3 then 1 else 0) : ℕ) + (d - 1)) * 86400 := by
  have hn := norm_month year m h1 h2
  simp only [Date, hn, sub_add_cancel, secondsPerDay]
  split_ifs <;> omega

/-- The instant `floorDate(t)` is the last midnight at or before `t`, and `ceilDate(t)`
the midnight that follows. -/
theorem floorDate_ceilDate_abs (t : Time) :
    (floorDate t).abs = 86400 * (t.abs / 86400) ∧
    (ceilDate t).abs = 86400 * (t.abs / 86400) + 86400 := by
  obtain ⟨y, yday, hy, hsum, hyd⟩ := absYday_spec t.abs
  have hleap := isLeap_offset y
  have hmd := ydayMonthDay_spec (isLeap ((y : ℤ) + absoluteZeroYear)) yday (by
    rcases hyd with h | ⟨h, h2⟩
    · exact Or.inl h
    · exact Or.inr ⟨h, hleap.2 h2⟩)
  obtain ⟨m1, m12, d1, hsum2⟩ := hmd
  have hD := Date_abs ((y : ℤ) + absoluteZeroYear)
    ((ydayMonthDay (isLeap ((y : ℤ) + absoluteZeroYear)) yday).1 : ℤ)
    ((ydayMonthDay (isLeap ((y : ℤ) + absoluteZeroYear)) yday).2 : ℤ)
    (by exact_mod_cast m1) (by exact_mod_cast m12) (by exact_mod_cast d1)
  have hC := Date_abs ((y : ℤ) + absoluteZeroYear)
    ((ydayMonthDay (isLeap ((y : ℤ) + absoluteZeroYear)) yday).1 : ℤ)
    (((ydayMonthDay (isLeap ((y : ℤ) + absoluteZeroYear)) yday).2 : ℤ) + 1)
    (by exact_mod_cast m1) (by exact_mod_cast m12) (by omega)
  have hf : floorDate t = Date ((y : ℤ) + absoluteZeroYear)
      ((ydayMonthDay (isLeap ((y : ℤ) + absoluteZeroYear)) yday).1 : ℤ)
      ((ydayMonthDay (isLeap ((y : ℤ) + absoluteZeroYear)) yday).2 : ℤ) := by
    simp only [floorDate, Time.Year, Time.Month, Time.Day, absDate, hy]
  have hc : ceilDate t = Date ((y : ℤ) + absoluteZeroYear)
      ((ydayMonthDay (isLeap ((y : ℤ) + absoluteZeroYear)) yday).1 : ℤ)
      (((ydayMonthDay (isLeap ((y : ℤ) + absoluteZeroYear)) yday).2 : ℤ) + 1) := by
    simp only [ceilDate, Time.Year, Time.Month, Time.Day, absDate, hy]
  rw [hf, hc]
  rw [daysSinceEpoch_offset] at hD hC
  generalize ydayMonthDay (isLeap ((y : ℤ) + absoluteZeroYear)) yday = md at *
  have e1 : ((md.1 : ℤ) - 1).toNat = md.1 - 1 := by omega
  have e2 : ((md.1 : ℤ) ≥ 3) ↔ md.1 ≥ 3 := by omega
  rw [e1] at hD hC
  simp only [e2] at hD hC
  generalize daysBefore (md.1 - 1) = db at *
  generalize (Date ((y : ℤ) + absoluteZeroYear) (md.1 : ℤ) (md.2 : ℤ)).abs = r at *
  generalize (Date ((y : ℤ) + absoluteZeroYear) (md.1 : ℤ) ((md.2 : ℤ) + 1)).abs = r2 at *
  generalize t.abs / 86400 = D at *
  split_ifs at hD hC hsum2 <;> omega

/-! ## The factory -/

theorem of_not_eq_false (b : Bool) (h : (!b) = false) : b = true := by
  cases b
  · cases h
  · rfl

theorem of_not_eq_true (b : Bool) (h : (!b) = true) : b = false := by
  cases b
  · rfl
  · cases h

theorem Float64.passesRangeCheck_of_inUnitRange (x : Float64)
    (h : x.inUnitRange = true) : x.passesRangeCheck = true := by
  cases x with
  | finite q =>
    simp only [Float64.inUnitRange, decide_eq_true_eq] at h
    simp [Float64.passesRangeCheck, Float64.lt, Float64.gt, h.1, h.2]
  | nan => simp [Float64.inUnitRange] at h
  | posInf => simp [Float64.inUnitRange] at h
  | negInf => simp [Float64.inUnitRange] at h

theorem Float64.passesRangeCheck_iff (x : Float64) :
    x.passesRangeCheck = true ↔ (x.inUnitRange = true ∨ x = Float64.nan) := by
  cases x with
  | finite q =>
    simp [Float64.passesRangeCheck, Float64.inUnitRange, Float64.lt, Float64.gt]
  | nan => simp [Float64.passesRangeCheck, Float64.lt, Float64.gt]
  | posInf => simp [Float64.passesRangeCheck, Float64.inUnitRange, Float64.lt, Float64.gt]
  | negInf => simp [Float64.passesRangeCheck, Float64.inUnitRange, Float64.lt, Float64.gt]

theorem checkDowFilter_eq_none_iff (fs : List volumeFilter) (i : ℕ) :
    checkDowFilter fs i = none ↔ ∀ f ∈ fs, f.isSellingBase = true := by
  induction fs generalizing i with
  | nil => simp [checkDowFilter]
  | cons f fs ih =>
    cases hf : f.isSellingBase <;> simp [checkDowFilter, hf, ih]

theorem checkDowFilter_first (fs : List volumeFilter) (start i : ℕ) (f : volumeFilter)
    (hi : fs[i]? = some f) (hf : f.isSellingBase = false)
    (hlow : ∀ j g, j < i → fs[j]? = some g → g.isSellingBase = true) :
    checkDowFilter fs start = some (GoError.errorf
      "volume filter at index %d was not selling the base asset as expected: %s"
      [FmtArg.int ((start + i : ℕ) : ℤ), FmtArg.str f.configValue]) := by
  induction fs generalizing start i with
  | nil => simp at hi
  | cons g gs ih =>
    cases i with
    | zero =>
      simp only [List.getElem?_cons_zero, Option.some.injEq] at hi
      subst hi
      simp [checkDowFilter, hf]
    | succ k =>
      have hg : g.isSellingBase = true := hlow 0 g (Nat.succ_pos k) (by simp)
      have hk : gs[k]? = some f := by simpa using hi
      have hl : ∀ j h, j < k → gs[j]? = some h → h.isSellingBase = true := by
        intro j h hj hjh
        exact hlow (j + 1) h (Nat.succ_lt_succ hj) (by simpa using hjh)
      have := ih (start + 1) k hk hl
      simp only [checkDowFilter, hg, Bool.not_true, Bool.false_eq_true, if_false]
      rw [this]
      have e : start + 1 + k = start + (k + 1) := by omega
      rw [e]

/-- The factory succeeds exactly when its seven tests pass, and then returns the provider
holding the arguments; otherwise it returns no provider and an error. -/
theorem makeSellTwapLevelProvider_cases {PF RO OC : Type}
    (pf : PF) (ro : RO) (oc : OC) (dow : DowFilter) (n b : ℤ) (c s m : Float64) :
    ((1 ≤ n ∧ n ≤ 24) ∧ (1 ≤ b ∧ b ≤ 86400) ∧ 86400 % b = 0 ∧
        c.passesRangeCheck = true ∧ s.passesRangeCheck = true ∧
        m.passesRangeCheck = true ∧ (∀ f ∈ dow.elems, f.isSellingBase = true) ∧
      makeSellTwapLevelProvider pf ro oc dow n b c s m =
        (some ⟨pf, ro, oc, dow, n, b, c, s, m⟩, none)) ∨
    (¬((1 ≤ n ∧ n ≤ 24) ∧ (1 ≤ b ∧ b ≤ 86400) ∧ 86400 % b = 0 ∧
        c.passesRangeCheck = true ∧ s.passesRangeCheck = true ∧
        m.passesRangeCheck = true ∧ (∀ f ∈ dow.elems, f.isSellingBase = true)) ∧
      ∃ e, makeSellTwapLevelProvider pf ro oc dow n b c s m = (none, some e)) := by
  unfold makeSellTwapLevelProvider
  by_cases h1 : n ≤ 0 ∨ n > 24
  · right
    rw [if_pos h1]
    exact ⟨by omega, _, rfl⟩
  rw [if_neg h1]
  by_cases h2 : b ≤ 0 ∨ b > secondsInDay
  · right
    rw [if_pos h2]
    simp only [secondsInDay] at h2
    exact ⟨by omega, _, rfl⟩
  rw [if_neg h2]
  have hb : 1 ≤ b ∧ b ≤ 86400 := by simp only [secondsInDay] at h2; omega
  have hmod : Int.tmod secondsInDay b = 86400 % b := by
    rw [Int.tmod_eq_emod (by simp [secondsInDay]) (by omega)]
    rfl
  by_cases h3 : Int.tmod secondsInDay b ≠ 0
  · right
    rw [if_pos h3]
    rw [hmod] at h3
    exact ⟨fun h => h3 h.2.2.1, _, rfl⟩
  rw [if_neg h3]
  rw [hmod, not_not] at h3
  cases hc : c.passesRangeCheck with
  | false =>
    right
    have hc2 : (c.lt (Float64.finite 0) || c.gt (Float64.finite 1)) = true := by
      unfold Float64.passesRangeCheck at hc
      exact of_not_eq_false _ hc
    rw [if_pos hc2]
    exact ⟨by simp, _, rfl⟩
  | true =>
  have hc2 : ¬ (c.lt (Float64.finite 0) || c.gt (Float64.finite 1)) = true := by
    unfold Float64.passesRangeCheck at hc
    rw [Bool.not_eq_true]
    exact of_not_eq_true _ hc
  rw [if_neg hc2]
  cases hs : s.passesRangeCheck with
  | false =>
    right
    have hs2 : (s.lt (Float64.finite 0) || s.gt (Float64.finite 1)) = true := by
      unfold Float64.passesRangeCheck at hs
      exact of_not_eq_false _ hs
    rw [if_pos hs2]
    exact ⟨by simp, _, rfl⟩
  | true =>
  have hs2 : ¬ (s.lt (Float64.finite 0) || s.gt (Float64.finite 1)) = true := by
    unfold Float64.passesRangeCheck at hs
    rw [Bool.not_eq_true]
    exact of_not_eq_true _ hs
  rw [if_neg hs2]
  cases hm : m.passesRangeCheck with
  | false =>
    right
    have hm2 : (m.lt (Float64.finite 0) || m.gt (Float64.finite 1)) = true := by
      unfold Float64.passesRangeCheck at hm
      exact of_not_eq_false _ hm
    rw [if_pos hm2]
    exact ⟨by simp, _, rfl⟩
  | true =>
  have hm2 : ¬ (m.lt (Float64.finite 0) || m.gt (Float64.finite 1)) = true := by
    unfold Float64.passesRangeCheck at hm
    rw [Bool.not_eq_true]
    exact of_not_eq_true _ hm
  rw [if_neg hm2]
  cases hd : checkDowFilter dow.elems 0 with
  | some e =>
    right
    refine ⟨?_, e, rfl⟩
    intro h
    have := (checkDowFilter_eq_none_iff dow.elems 0).2 h.2.2.2.2.2.2
    rw [hd] at this
    cases this
  | none =>
    left
    exact ⟨by omega, hb, h3, rfl, rfl, rfl, (checkDowFilter_eq_none_iff dow.elems 0).1 hd, rfl⟩

/-- When no fraction is NaN, the factory returns a provider and no error exactly under
the conditions of the specification; in every other case it returns an error and no
provider. -/
theorem makeSellTwapLevelProvider_iff_of_not_nan {PF RO OC : Type}
    (pf : PF) (ro : RO) (oc : OC) (dow : DowFilter) (n b : ℤ) (c s m : Float64)
    (hc : c ≠ Float64.nan) (hs : s ≠ Float64.nan) (hm : m ≠ Float64.nan) :
    ((∃ p, makeSellTwapLevelProvider pf ro oc dow n b c s m = (some p, none)) ↔
      ((1 ≤ n ∧ n ≤ 24) ∧ (1 ≤ b ∧ b ≤ 86400) ∧ 86400 % b = 0 ∧
        c.inUnitRange = true ∧ s.inUnitRange = true ∧ m.inUnitRange = true ∧
        (∀ f ∈ dow.elems, f.isSellingBase = true))) ∧
    ((¬ ∃ p, makeSellTwapLevelProvider pf ro oc dow n b c s m = (some p, none)) →
      ∃ e, makeSellTwapLevelProvider pf ro oc dow n b c s m = (none, some e)) := by
  have hc2 := Float64.passesRangeCheck_iff c
  have hs2 := Float64.passesRangeCheck_iff s
  have hm2 := Float64.passesRangeCheck_iff m
  simp only [hc, hs, hm, or_false] at hc2 hs2 hm2
  rw [← hc2, ← hs2, ← hm2]
  rcases makeSellTwapLevelProvider_cases pf ro oc dow n b c s m with h | h
  · obtain ⟨h1, h2, h3, h4, h5, h6, h7, h8⟩ := h
    refine ⟨⟨fun _ => ⟨h1, h2, h3, h4, h5, h6, h7⟩, fun _ => ⟨_, h8⟩⟩, fun hn => ?_⟩
    exact absurd ⟨_, h8⟩ hn
  · obtain ⟨hne, e, he⟩ := h
    refine ⟨⟨fun hp => ?_, fun hh => absurd hh hne⟩, fun _ => ⟨e, he⟩⟩
    obtain ⟨p, hp⟩ := hp
    rw [he] at hp
    cases hp

/-- The examples of the specification: the factory fails for 0 or 25 hours, for a bucket
size of 86401 or of 7 seconds and for a surplus ceiling of 1.5, and succeeds for 24 hours
and hourly buckets with every fraction at 0.0 or at 1.0. -/
theorem makeSellTwapLevelProvider_examples :
    (∃ e, makeSellTwapLevelProvider () () () sellingWeek 0 3600
      (Float64.finite 0) (Float64.finite 0) (Float64.finite 0) = (none, some e)) ∧
    (∃ e, makeSellTwapLevelProvider () () () sellingWeek 25 3600
      (Float64.finite 0) (Float64.finite 0) (Float64.finite 0) = (none, some e)) ∧
    (∃ e, makeSellTwapLevelProvider () () () sellingWeek 24 86401
      (Float64.finite 0) (Float64.finite 0) (Float64.finite 0) = (none, some e)) ∧
    (∃ e, makeSellTwapLevelProvider () () () sellingWeek 24 7
      (Float64.finite 0) (Float64.finite 0) (Float64.finite 0) = (none, some e)) ∧
    (∃ e, makeSellTwapLevelProvider () () () sellingWeek 24 3600
      (Float64.finite (3 / 2)) (Float64.finite 0) (Float64.finite 0) = (none, some e)) ∧
    (∃ p, makeSellTwapLevelProvider () () () sellingWeek 24 3600
      (Float64.finite 0) (Float64.finite 0) (Float64.finite 0) = (some p, none)) ∧
    (∃ p, makeSellTwapLevelProvider () () () sellingWeek 24 3600
      (Float64.finite 1) (Float64.finite 1) (Float64.finite 1) = (some p, none)) := by
  have hweek : ∀ f ∈ sellingWeek.elems, f.isSellingBase = true := by
    intro f hf
    simp only [sellingWeek, List.mem_replicate] at hf
    rw [hf.2]
    rfl
  have h0 : (Float64.finite 0).inUnitRange = true := by
    simp [Float64.inUnitRange]
  have h1 : (Float64.finite 1).inUnitRange = true := by
    simp [Float64.inUnitRange]
  have h32 : ¬ (Float64.finite (3 / 2)).inUnitRange = true := by
    simp [Float64.inUnitRange]
    norm_num
  have key := fun (n b : ℤ) (c s m : ℚ) =>
    makeSellTwapLevelProvider_iff_of_not_nan () () () sellingWeek n b
      (Float64.finite c) (Float64.finite s) (Float64.finite m)
      (by simp) (by simp) (by simp)
  refine ⟨?_, ?_, ?_, ?_, ?_, ?_, ?_⟩
  · exact (key 0 3600 0 0 0).2 (fun h => by have := (key 0 3600 0 0 0).1.1 h; omega)
  · exact (key 25 3600 0 0 0).2 (fun h => by have := (key 25 3600 0 0 0).1.1 h; omega)
  · exact (key 24 86401 0 0 0).2 (fun h => by have := (key 24 86401 0 0 0).1.1 h; omega)
  · exact (key 24 7 0 0 0).2 (fun h => by have := (key 24 7 0 0 0).1.1 h; omega)
  · exact (key 24 3600 (3 / 2) 0 0).2
      (fun h => h32 ((key 24 3600 (3 / 2) 0 0).1.1 h).2.2.2.1)
  · exact (key 24 3600 0 0 0).1.2 ⟨by decide, by decide, by decide, h0, h0, h0, hweek⟩
  · exact (key 24 3600 1 1 1).1.2 ⟨by decide, by decide, by decide, h1, h1, h1, hweek⟩

/-- The errors of the first five tests of the factory carry the value supplied for the
parameter they name. -/
theorem range_errors_report_supplied_value {PF RO OC : Type}
    (pf : PF) (ro : RO) (oc : OC) (dow : DowFilter) (n b : ℤ) (c s m : Float64) :
    ((n ≤ 0 ∨ n > 24) →
      makeSellTwapLevelProvider pf ro oc dow n b c s m = (none, some (GoError.errorf
        "invalid number of hours to sell, expected 0 < numHoursToSell <= 24; was %d"
        [FmtArg.int n]))) ∧
    (¬ (n ≤ 0 ∨ n > 24) → (b ≤ 0 ∨ b > 86400) →
      makeSellTwapLevelProvider pf ro oc dow n b c s m = (none, some (GoError.errorf
        "invalid value for parentBucketSizeSeconds, expected 0 < parentBucketSizeSeconds <= %d (secondsInDay); was %d"
        [FmtArg.int 86400, FmtArg.int b]))) ∧
    (¬ (n ≤ 0 ∨ n > 24) → ¬ (b ≤ 0 ∨ b > 86400) → 86400 % b ≠ 0 →
      makeSellTwapLevelProvider pf ro oc dow n b c s m = (none, some (GoError.errorf
        "parentBucketSizeSeconds needs to perfectly divide secondsInDay but it does not; secondsInDay is %d and parentBucketSizeSeconds was %d"
        [FmtArg.int 86400, FmtArg.int b]))) ∧
    (¬ (n ≤ 0 ∨ n > 24) → ¬ (b ≤ 0 ∨ b > 86400) → 86400 % b = 0 →
      c.passesRangeCheck = false →
      makeSellTwapLevelProvider pf ro oc dow n b c s m = (none, some (GoError.errorf
        "distributeSurplusOverRemainingIntervalsPercentCeiling is invalid, expected 0.0 <= distributeSurplusOverRemainingIntervalsPercentCeiling <= 1.0; was %.f"
        [FmtArg.float c]))) ∧
    (¬ (n ≤ 0 ∨ n > 24) → ¬ (b ≤ 0 ∨ b > 86400) → 86400 % b = 0 →
      c.passesRangeCheck = true → s.passesRangeCheck = false →
      makeSellTwapLevelProvider pf ro oc dow n b c s m = (none, some (GoError.errorf
        "exponentialSmoothingFactor is invalid, expected 0.0 <= exponentialSmoothingFactor <= 1.0; was %.f"
        [FmtArg.float s]))) := by
  have hsd : secondsInDay = 86400 := by decide
  have hmod : ¬ (b ≤ 0 ∨ b > 86400) → Int.tmod secondsInDay b = 86400 % b := by
    intro hb
    rw [hsd, Int.tmod_eq_emod (by decide) (by omega)]
  have hfalse : ∀ x : Float64, x.passesRangeCheck = false →
      (x.lt (Float64.finite 0) || x.gt (Float64.finite 1)) = true := by
    intro x hx
    unfold Float64.passesRangeCheck at hx
    exact of_not_eq_false _ hx
  have htrue : ∀ x : Float64, x.passesRangeCheck = true →
      ¬ (x.lt (Float64.finite 0) || x.gt (Float64.finite 1)) = true := by
    intro x hx
    unfold Float64.passesRangeCheck at hx
    rw [Bool.not_eq_true]
    exact of_not_eq_true _ hx
  refine ⟨?_, ?_, ?_, ?_, ?_⟩
  · intro h1
    unfold makeSellTwapLevelProvider
    rw [if_pos h1]
  · intro h1 h2
    unfold makeSellTwapLevelProvider
    rw [if_neg h1, hsd, if_pos h2]
  · intro h1 h2 h3
    unfold makeSellTwapLevelProvider
    rw [if_neg h1, hmod h2, hsd, if_neg h2, if_pos h3]
  · intro h1 h2 h3 h4
    unfold makeSellTwapLevelProvider
    rw [if_neg h1, hmod h2, hsd, if_neg h2, if_neg (not_not.2 h3), if_pos (hfalse c h4)]
  · intro h1 h2 h3 h4 h5
    unfold makeSellTwapLevelProvider
    rw [if_neg h1, hmod h2, hsd, if_neg h2, if_neg (not_not.2 h3), if_neg (htrue c h4),
      if_pos (hfalse s h5)]


/-- C1 (defect in the code): a NaN surplus ceiling does not lie in [0.0, 1.0], yet with
every other parameter valid the factory returns a provider and no error, because NaN
is neither `< 0.0` nor `> 1.0`. -/
theorem C1_nan_ceiling_accepted :
    Float64.nan.inUnitRange = false ∧
    makeSellTwapLevelProvider () () () sellingWeek 24 3600
        Float64.nan (Float64.finite 0) (Float64.finite 1) =
      (some ⟨(), (), (), sellingWeek, 24, 3600,
        Float64.nan, Float64.finite 0, Float64.finite 1⟩, none) := by
  refine ⟨rfl, ?_⟩
  rcases makeSellTwapLevelProvider_cases () () () sellingWeek 24 3600
      Float64.nan (Float64.finite 0) (Float64.finite 1) with h | h
  · exact h.2.2.2.2.2.2.2
  · exfalso
    apply h.1
    refine ⟨by decide, by decide, by decide, ?_, ?_, ?_, ?_⟩
    · simp [Float64.passesRangeCheck, Float64.lt, Float64.gt]
    · simp [Float64.passesRangeCheck, Float64.lt, Float64.gt]
    · simp [Float64.passesRangeCheck, Float64.lt, Float64.gt]
    · intro f hf
      simp only [sellingWeek, List.mem_replicate] at hf
      rw [hf.2]
      rfl

/-- C2 (defect in the code): with a NaN surplus ceiling (rule 4 violated) and a smoothing
factor of 1.5 (rule 5 violated), rules 1 to 3 holding, the factory reports the error of
rule 5, not that of rule 4, the lowest-numbered rule violated. -/
theorem C2_nan_ceiling_skipped :
    Float64.nan.inUnitRange = false ∧
    makeSellTwapLevelProvider () () () sellingWeek 24 3600
        Float64.nan (Float64.finite (3 / 2)) (Float64.finite 0) =
      (none, some (GoError.errorf
        "exponentialSmoothingFactor is invalid, expected 0.0 <= exponentialSmoothingFactor <= 1.0; was %.f"
        [FmtArg.float (Float64.finite (3 / 2))])) := by
  refine ⟨rfl, ?_⟩
  have h1 : ¬ ((24 : ℤ) ≤ 0 ∨ (24 : ℤ) > 24) := by decide
  have h2 : ¬ ((3600 : ℤ) ≤ 0 ∨ (3600 : ℤ) > secondsInDay) := by decide
  have h3 : ¬ (Int.tmod secondsInDay 3600 ≠ 0) := by decide
  have h4 : ¬ ((Float64.nan.lt (Float64.finite 0) ||
      Float64.nan.gt (Float64.finite 1)) = true) := by
    simp [Float64.lt, Float64.gt]
  have h5 : ((Float64.finite (3 / 2)).lt (Float64.finite 0) ||
      (Float64.finite (3 / 2)).gt (Float64.finite 1)) = true := by
    simp [Float64.lt, Float64.gt]
    norm_num
  unfold makeSellTwapLevelProvider
  rw [if_neg h1, if_neg h2, if_neg h3, if_neg h4, if_pos h5]

/-- C3: when the six numeric tests of the factory pass and `i` is the smallest index whose
filter is not selling the base asset, the factory returns no provider and the error that
reports the index `i` together with the `configValue` of `dowFilter[i]`. -/
theorem C3_first_non_selling_filter_reported {PF RO OC : Type}
    (pf : PF) (ro : RO) (oc : OC) (dow : DowFilter) (n b : ℤ) (c s m : Float64)
    (i : ℕ) (f : volumeFilter)
    (hn : 1 ≤ n ∧ n ≤ 24) (hb : 1 ≤ b ∧ b ≤ 86400) (hdiv : 86400 % b = 0)
    (hc : c.passesRangeCheck = true) (hs : s.passesRangeCheck = true)
    (hm : m.passesRangeCheck = true)
    (hi : dow.elems[i]? = some f) (hf : f.isSellingBase = false)
    (hlow : ∀ j g, j < i → dow.elems[j]? = some g → g.isSellingBase = true) :
    i < 7 ∧
    makeSellTwapLevelProvider pf ro oc dow n b c s m =
      (none, some (GoError.errorf
        "volume filter at index %d was not selling the base asset as expected: %s"
        [FmtArg.int (i : ℤ), FmtArg.str f.configValue])) := by
  have hlt : i < 7 := by
    have := (List.getElem?_eq_some_iff.1 hi).1
    rw [dow.size_eq] at this
    exact this
  refine ⟨hlt, ?_⟩
  have h1 : ¬ (n ≤ 0 ∨ n > 24) := by omega
  have h2 : ¬ (b ≤ 0 ∨ b > secondsInDay) := by simp only [secondsInDay]; omega
  have h3 : ¬ (Int.tmod secondsInDay b ≠ 0) := by
    have hsd : secondsInDay = 86400 := by decide
    rw [hsd, Int.tmod_eq_emod (by decide) (by omega), hdiv]
    simp
  have h4 : ¬ ((c.lt (Float64.finite 0) || c.gt (Float64.finite 1)) = true) := by
    unfold Float64.passesRangeCheck at hc
    rw [Bool.not_eq_true]
    exact of_not_eq_true _ hc
  have h5 : ¬ ((s.lt (Float64.finite 0) || s.gt (Float64.finite 1)) = true) := by
    unfold Float64.passesRangeCheck at hs
    rw [Bool.not_eq_true]
    exact of_not_eq_true _ hs
  have h6 : ¬ ((m.lt (Float64.finite 0) || m.gt (Float64.finite 1)) = true) := by
    unfold Float64.passesRangeCheck at hm
    rw [Bool.not_eq_true]
    exact of_not_eq_true _ hm
  have h7 := checkDowFilter_first dow.elems 0 i f hi hf hlow
  rw [Nat.zero_add] at h7
  unfold makeSellTwapLevelProvider
  rw [if_neg h1, if_neg h2, if_neg h3, if_neg h4, if_neg h5, if_neg h6, h7]

theorem C3_first_non_selling_filter_reported_witness :
    2 < 7 ∧
    makeSellTwapLevelProvider () () () tuesdayBuying 24 3600
        (Float64.finite 0) (Float64.finite 1) (Float64.finite (1 / 2)) =
      (none, some (GoError.errorf
        "volume filter at index %d was not selling the base asset as expected: %s"
        [FmtArg.int 2, FmtArg.str "tue"])) :=
  C3_first_non_selling_filter_reported () () () tuesdayBuying 24 3600
    (Float64.finite 0) (Float64.finite 1) (Float64.finite (1 / 2)) 2
    ⟨"tue", false, (Float64.finite 1000, none)⟩
    (by decide) (by decide) (by decide)
    (by simp [Float64.passesRangeCheck, Float64.lt, Float64.gt])
    (by simp [Float64.passesRangeCheck, Float64.lt, Float64.gt])
    (by simp [Float64.passesRangeCheck, Float64.lt, Float64.gt]; norm_num)
    rfl rfl
    (by
      intro j g hj hg
      have hj2 : j = 0 ∨ j = 1 := by omega
      rcases hj2 with rfl | rfl
      · simp only [tuesdayBuying, List.getElem?_cons_zero, Option.some.injEq] at hg
        rw [← hg]
      · simp only [tuesdayBuying, List.getElem?_cons_succ, List.getElem?_cons_zero,
          Option.some.injEq] at hg
        rw [← hg])

/-- C4 (defect in the code): when only `minChildOrderSizePercentOfParent` is out of range
(1.5, with `exponentialSmoothingFactor` = 0.5), the error names
`minChildOrderSizePercentOfParent` but the value formatted after `was` is that of
`exponentialSmoothingFactor`, which differs from the value supplied. -/
theorem C4_min_child_error_reports_smoothing_factor :
    makeSellTwapLevelProvider () () () sellingWeek 24 3600
        (Float64.finite 0) (Float64.finite (1 / 2)) (Float64.finite (3 / 2)) =
      (none, some (GoError.errorf
        "minChildOrderSizePercentOfParent is invalid, expected 0.0 <= minChildOrderSizePercentOfParent <= 1.0; was %.f"
        [FmtArg.float (Float64.finite (1 / 2))])) ∧
    FmtArg.float (Float64.finite (1 / 2)) ≠ FmtArg.float (Float64.finite (3 / 2)) := by
  constructor
  · have h1 : ¬ ((24 : ℤ) ≤ 0 ∨ (24 : ℤ) > 24) := by decide
    have h2 : ¬ ((3600 : ℤ) ≤ 0 ∨ (3600 : ℤ) > secondsInDay) := by decide
    have h3 : ¬ (Int.tmod secondsInDay 3600 ≠ 0) := by decide
    have h4 : ¬ (((Float64.finite 0).lt (Float64.finite 0) ||
        (Float64.finite 0).gt (Float64.finite 1)) = true) := by
      simp [Float64.lt, Float64.gt]
    have h5 : ¬ (((Float64.finite (1 / 2)).lt (Float64.finite 0) ||
        (Float64.finite (1 / 2)).gt (Float64.finite 1)) = true) := by
      simp [Float64.lt, Float64.gt]
      norm_num
    have h6 : ((Float64.finite (3 / 2)).lt (Float64.finite 0) ||
        (Float64.finite (3 / 2)).gt (Float64.finite 1)) = true := by
      simp [Float64.lt, Float64.gt]
      norm_num
    unfold makeSellTwapLevelProvider
    rw [if_neg h1, if_neg h2, if_neg h3, if_neg h4, if_neg h5, if_pos h6]
  · intro h
    simp only [FmtArg.float.injEq, Float64.finite.injEq] at h
    norm_num at h

/-! ## The bucket scheduler -/

theorem Time.Weekday_lt (t : Time) : t.Weekday < 7 := by
  simp only [Time.Weekday, secondsPerWeek, secondsPerDay]
  omega

/-- The lookup `p.dowFilter[now.Weekday()]` always finds a filter. -/
theorem dowFilter_lookup (dow : DowFilter) (t : Time) :
    ∃ f, dow.elems[t.Weekday]? = some f := by
  have h : t.Weekday < dow.elems.length := by
    rw [dow.size_eq]
    exact t.Weekday_lt
  exact ⟨dow.elems[t.Weekday], List.getElem?_eq_getElem h⟩

theorem secondsToday_eq (t : Time) : (ceilDate t).Unix - (floorDate t).Unix = 86400 := by
  obtain ⟨h1, h2⟩ := floorDate_ceilDate_abs t
  simp only [Time.Unix, h1, h2]
  push_cast
  ring

theorem secondsElapsed_eq (t : Time) :
    t.Unix - (floorDate t).Unix = ((t.abs % 86400 : ℕ) : ℤ) := by
  obtain ⟨h1, -⟩ := floorDate_ceilDate_abs t
  simp only [Time.Unix, h1]
  omega

/-- When the cap of the filter of the weekday resolves and the bucket size is not zero,
`makeBucketInfo` returns this `bucketInfo` and a nil error. -/
theorem makeBucketInfo_resolved {PF RO OC : Type} (p : sellTwapLevelProvider PF RO OC)
    (now : Time) (f : volumeFilter) (hf : p.dowFilter.elems[now.Weekday]? = some f)
    (hcap : f.mustGetBaseAssetCapInBaseUnits.2 = none)
    (hp : p.parentBucketSizeSeconds ≠ 0) :
    makeBucketInfo p now = Outcome.ret (some
      { ID := Int.tdiv ((now.abs % 86400 : ℕ) : ℤ) p.parentBucketSizeSeconds
        totalBuckets := Float64.toInt64 (Float64.ceil
          (Float64.div (Float64.ofInt 86400) (Float64.ofInt p.parentBucketSizeSeconds)))
        now := now
        secondsElapsed := ((now.abs % 86400 : ℕ) : ℤ)
        volFilter := f
        dailyLimit := f.mustGetBaseAssetCapInBaseUnits.1 }, none) := by
  rcases hm : f.mustGetBaseAssetCapInBaseUnits with ⟨cap, e⟩
  rw [hm] at hcap
  simp only at hcap
  subst hcap
  simp only [makeBucketInfo, hf, hm, secondsToday_eq, secondsElapsed_eq, if_neg hp]

/-- When the cap of the filter of the weekday does not resolve, `makeBucketInfo` returns
no `bucketInfo` and the wrapped error. -/
theorem makeBucketInfo_failed {PF RO OC : Type} (p : sellTwapLevelProvider PF RO OC)
    (now : Time) (f : volumeFilter) (e : GoError)
    (hf : p.dowFilter.elems[now.Weekday]? = some f)
    (hcap : f.mustGetBaseAssetCapInBaseUnits.2 = some e) :
    makeBucketInfo p now = Outcome.ret (none,
      some (GoError.wrap "could not fetch base asset cap in base units: %s" e)) := by
  rcases hm : f.mustGetBaseAssetCapInBaseUnits with ⟨cap, e2⟩
  rw [hm] at hcap
  simp only at hcap
  subst hcap
  simp only [makeBucketInfo, hf, hm]

theorem tdiv_secondsElapsed (n : ℕ) (b : ℤ) (hb : 0 < b) :
    Int.tdiv (n : ℤ) b = (n : ℤ) / b :=
  Int.tdiv_eq_ediv (Int.natCast_nonneg n) hb.le

/-- Two instants with the same year, month and day have the same day number. -/
theorem same_day_number (t1 t2 : Time) (hy : t1.Year = t2.Year) (hm : t1.Month = t2.Month)
    (hd : t1.Day = t2.Day) : t1.abs / 86400 = t2.abs / 86400 := by
  have h1 := (floorDate_ceilDate_abs t1).1
  have h2 := (floorDate_ceilDate_abs t2).1
  have e : floorDate t1 = floorDate t2 := by
    simp only [floorDate, hy, hm, hd]
  rw [e] at h1
  omega

theorem same_day_weekday (t1 t2 : Time) (h : t1.abs / 86400 = t2.abs / 86400) :
    t1.Weekday = t2.Weekday := by
  simp only [Time.Weekday, secondsPerWeek, secondsPerDay]
  omega

theorem ediv_bounds (a b : ℤ) (hb : 0 < b) : a / b * b ≤ a ∧ a < (a / b + 1) * b :=
  ⟨Int.ediv_mul_le a (ne_of_gt hb), Int.lt_ediv_add_one_mul_self a hb⟩

theorem floor_div_eq (a b : ℤ) (hb : 0 < b) : ⌊(a : ℚ) / (b : ℚ)⌋ = a / b := by
  obtain ⟨h1, h2⟩ := ediv_bounds a b hb
  have hbq : (0 : ℚ) < (b : ℚ) := by exact_mod_cast hb
  apply Int.floor_eq_iff.2
  constructor
  · rw [le_div_iff₀ hbq]
    exact_mod_cast h1
  · rw [div_lt_iff₀ hbq]
    exact_mod_cast h2

theorem clock_sum (t : Time) :
    ((t.abs % 86400 : ℕ) : ℤ) = 3600 * (t.Clock.1 : ℤ) + 60 * (t.Clock.2.1 : ℤ) + (t.Clock.2.2 : ℤ) ∧
    (t.abs % 86400 = 0 ↔ t.Clock = (0, 0, 0)) := by
  simp only [Time.Clock, secondsPerDay, Prod.mk.injEq]
  omega

/-- C5: for a provider returned without error by the factory and an instant at which the
cap of the weekday resolves, `makeBucketInfo` returns a `bucketInfo` whose `totalBuckets`
is the ceiling of 86400 / parentBucketSizeSeconds and satisfies
totalBuckets * parentBucketSizeSeconds = 86400 exactly. -/
theorem C5_total_buckets_tile_the_day {PF RO OC : Type}
    (pf : PF) (ro : RO) (oc : OC) (dow : DowFilter) (n b : ℤ) (c s m : Float64)
    (p : sellTwapLevelProvider PF RO OC) (now : Time) (f : volumeFilter)
    (hmk : makeSellTwapLevelProvider pf ro oc dow n b c s m = (some p, none))
    (hf : p.dowFilter.elems[now.Weekday]? = some f)
    (hcap : f.mustGetBaseAssetCapInBaseUnits.2 = none) :
    ∃ bi, makeBucketInfo p now = Outcome.ret (some bi, none) ∧
      bi.totalBuckets = ⌈(86400 : ℚ) / (p.parentBucketSizeSeconds : ℚ)⌉ ∧
      bi.totalBuckets * p.parentBucketSizeSeconds = 86400 := by
  rcases makeSellTwapLevelProvider_cases pf ro oc dow n b c s m with h | h
  · obtain ⟨-, hb, hdiv, -, -, -, -, heq⟩ := h
    rw [heq] at hmk
    simp only [Prod.mk.injEq, Option.some.injEq, and_true] at hmk
    subst hmk
    have hp0 : b ≠ 0 := by omega
    refine ⟨_, makeBucketInfo_resolved _ now f hf hcap hp0, ?_, ?_⟩
    · exact Float64.toInt64_ceil_div b hb.1 (by omega)
    · show Float64.toInt64 _ * b = 86400
      rw [Float64.toInt64_ceil_div b hb.1 (by omega)]
      obtain ⟨k, hk⟩ := Int.dvd_of_emod_eq_zero hdiv
      have hbq : (b : ℚ) ≠ 0 := by exact_mod_cast hp0
      have e : (86400 : ℚ) / (b : ℚ) = (k : ℚ) := by
        rw [div_eq_iff hbq]
        have : ((86400 : ℤ) : ℚ) = ((b * k : ℤ) : ℚ) := by rw [hk]
        push_cast at this
        linarith
      rw [e, Int.ceil_intCast, hk]
      ring
  · obtain ⟨-, e, he⟩ := h
    rw [he] at hmk
    cases hmk

/-- C6: for every bucket size in 1..86400, whether or not it divides 86400, and every
instant at which the cap of the weekday resolves, `makeBucketInfo` returns a `bucketInfo`
with 0 <= ID < totalBuckets. -/
theorem C6_bucket_index_in_range {PF RO OC : Type} (p : sellTwapLevelProvider PF RO OC)
    (now : Time) (f : volumeFilter)
    (hp1 : 1 ≤ p.parentBucketSizeSeconds) (hp2 : p.parentBucketSizeSeconds ≤ 86400)
    (hf : p.dowFilter.elems[now.Weekday]? = some f)
    (hcap : f.mustGetBaseAssetCapInBaseUnits.2 = none) :
    ∃ bi, makeBucketInfo p now = Outcome.ret (some bi, none) ∧
      0 ≤ bi.ID ∧ bi.ID < bi.totalBuckets := by
  have hp0 : p.parentBucketSizeSeconds ≠ 0 := by omega
  refine ⟨_, makeBucketInfo_resolved p now f hf hcap hp0, ?_, ?_⟩
  · show 0 ≤ Int.tdiv _ _
    rw [tdiv_secondsElapsed _ _ (by omega)]
    exact Int.ediv_nonneg (Int.natCast_nonneg _) (by omega)
  · show Int.tdiv _ _ < Float64.toInt64 _
    rw [tdiv_secondsElapsed _ _ (by omega),
      Float64.toInt64_ceil_div p.parentBucketSizeSeconds hp1 (by omega)]
    generalize p.parentBucketSizeSeconds = b at *
    have hbq : (0 : ℚ) < (b : ℚ) := by exact_mod_cast (by omega : (0 : ℤ) < b)
    have hc : (86400 : ℚ) / (b : ℚ) ≤ (⌈(86400 : ℚ) / (b : ℚ)⌉ : ℚ) := Int.le_ceil _
    rw [div_le_iff₀ hbq] at hc
    have hc2 : (86400 : ℤ) ≤ ⌈(86400 : ℚ) / (b : ℚ)⌉ * b := by exact_mod_cast hc
    have hse : ((now.abs % 86400 : ℕ) : ℤ) < 86400 := by omega
    have hid := (ediv_bounds ((now.abs % 86400 : ℕ) : ℤ) b (by omega)).1
    have : ((now.abs % 86400 : ℕ) : ℤ) / b * b < ⌈(86400 : ℚ) / (b : ℚ)⌉ * b := by omega
    exact lt_of_mul_lt_mul_right this (by omega)

/-- C7: for a provider with a positive bucket size and two instants t1 <= t2 of the same
calendar day (the cap of that weekday resolving), `makeBucketInfo` returns a `bucketInfo`
for both and the ID for t1 is at most the ID for t2. -/
theorem C7_bucket_index_monotone {PF RO OC : Type} (p : sellTwapLevelProvider PF RO OC)
    (t1 t2 : Time) (f : volumeFilter)
    (hp : 0 < p.parentBucketSizeSeconds)
    (hy : t1.Year = t2.Year) (hm : t1.Month = t2.Month) (hd : t1.Day = t2.Day)
    (hle : t1.Unix ≤ t2.Unix)
    (hf : p.dowFilter.elems[t1.Weekday]? = some f)
    (hcap : f.mustGetBaseAssetCapInBaseUnits.2 = none) :
    ∃ b1 b2, makeBucketInfo p t1 = Outcome.ret (some b1, none) ∧
      makeBucketInfo p t2 = Outcome.ret (some b2, none) ∧ b1.ID ≤ b2.ID := by
  have hp0 : p.parentBucketSizeSeconds ≠ 0 := by omega
  have hday := same_day_number t1 t2 hy hm hd
  have hf2 : p.dowFilter.elems[t2.Weekday]? = some f := by
    rw [← same_day_weekday t1 t2 hday]
    exact hf
  refine ⟨_, _, makeBucketInfo_resolved p t1 f hf hcap hp0,
    makeBucketInfo_resolved p t2 f hf2 hcap hp0, ?_⟩
  show Int.tdiv _ _ ≤ Int.tdiv _ _
  rw [tdiv_secondsElapsed _ _ hp, tdiv_secondsElapsed _ _ hp]
  apply Int.ediv_le_ediv hp
  simp only [Time.Unix] at hle
  omega

/-- C8: for every positive bucket size and every instant at which the cap of the weekday
resolves, `makeBucketInfo` returns a `bucketInfo` with totalBuckets the ceiling of
86400 / parentBucketSizeSeconds, secondsElapsed the seconds since midnight, and ID the
floor of secondsElapsed / parentBucketSizeSeconds, so that
ID * parentBucketSizeSeconds <= secondsElapsed < (ID + 1) * parentBucketSizeSeconds; with
a bucket size of 3600 at 02:30:00 UTC this gives ID = 2, totalBuckets = 24 and
secondsElapsed = 9000. -/
theorem C8_bucket_arithmetic {PF RO OC : Type} (p : sellTwapLevelProvider PF RO OC)
    (now : Time) (f : volumeFilter)
    (hp : 0 < p.parentBucketSizeSeconds) (hmax : p.parentBucketSizeSeconds < 2 ^ 63)
    (hf : p.dowFilter.elems[now.Weekday]? = some f)
    (hcap : f.mustGetBaseAssetCapInBaseUnits.2 = none) :
    ∃ bi, makeBucketInfo p now = Outcome.ret (some bi, none) ∧
      bi.totalBuckets = ⌈(86400 : ℚ) / (p.parentBucketSizeSeconds : ℚ)⌉ ∧
      bi.secondsElapsed = now.Unix - (floorDate now).Unix ∧
      bi.secondsElapsed =
        3600 * (now.Clock.1 : ℤ) + 60 * (now.Clock.2.1 : ℤ) + (now.Clock.2.2 : ℤ) ∧
      bi.ID = ⌊(bi.secondsElapsed : ℚ) / (p.parentBucketSizeSeconds : ℚ)⌋ ∧
      bi.ID * p.parentBucketSizeSeconds ≤ bi.secondsElapsed ∧
      bi.secondsElapsed < (bi.ID + 1) * p.parentBucketSizeSeconds ∧
      (p.parentBucketSizeSeconds = 3600 → now.Clock = (2, 30, 0) →
        bi.ID = 2 ∧ bi.totalBuckets = 24 ∧ bi.secondsElapsed = 9000) := by
  have hp0 : p.parentBucketSizeSeconds ≠ 0 := by omega
  have hb := ediv_bounds ((now.abs % 86400 : ℕ) : ℤ) p.parentBucketSizeSeconds hp
  have htot := Float64.toInt64_ceil_div p.parentBucketSizeSeconds (by omega) hmax
  refine ⟨_, makeBucketInfo_resolved p now f hf hcap hp0, ?_, ?_, ?_, ?_, ?_, ?_, ?_⟩
  · exact Float64.toInt64_ceil_div _ (by omega) hmax
  · exact (secondsElapsed_eq now).symm
  · exact (clock_sum now).1
  · show Int.tdiv _ _ = _
    rw [tdiv_secondsElapsed _ _ hp, floor_div_eq _ _ hp]
  · show Int.tdiv _ _ * _ ≤ _
    rw [tdiv_secondsElapsed _ _ hp]
    exact hb.1
  · show _ < (Int.tdiv _ _ + 1) * _
    rw [tdiv_secondsElapsed _ _ hp]
    exact hb.2
  · intro h3600 hclock
    have hsum := (clock_sum now).1
    rw [hclock] at hsum
    have hse : ((now.abs % 86400 : ℕ) : ℤ) = 9000 := by
      rw [hsum]
      norm_num
    refine ⟨?_, ?_, hse⟩
    · show Int.tdiv _ _ = 2
      rw [tdiv_secondsElapsed _ _ hp, hse, h3600]
      decide
    · show Float64.toInt64 _ = 24
      rw [htot, h3600]
      norm_num [Int.ceil_eq_iff]

theorem hourlyProvider_built :
    makeSellTwapLevelProvider () () () sellingWeek 24 3600
        (Float64.finite 0) (Float64.finite (1 / 2)) (Float64.finite 1) =
      (some hourlyProvider, none) := by
  rcases makeSellTwapLevelProvider_cases () () () sellingWeek 24 3600
      (Float64.finite 0) (Float64.finite (1 / 2)) (Float64.finite 1) with h | h
  · exact h.2.2.2.2.2.2.2
  · exfalso
    apply h.1
    refine ⟨by decide, by decide, by decide, ?_, ?_, ?_, ?_⟩
    · simp [Float64.passesRangeCheck, Float64.lt, Float64.gt]
    · simp [Float64.passesRangeCheck, Float64.lt, Float64.gt]
      norm_num
    · simp [Float64.passesRangeCheck, Float64.lt, Float64.gt]
    · intro f hf
      simp only [sellingWeek, List.mem_replicate] at hf
      rw [hf.2]
      rfl

theorem C5_total_buckets_tile_the_day_witness :
    ∃ bi, makeBucketInfo hourlyProvider t0230 = Outcome.ret (some bi, none) ∧
      bi.totalBuckets = ⌈(86400 : ℚ) / (hourlyProvider.parentBucketSizeSeconds : ℚ)⌉ ∧
      bi.totalBuckets * hourlyProvider.parentBucketSizeSeconds = 86400 :=
  C5_total_buckets_tile_the_day () () () sellingWeek 24 3600
    (Float64.finite 0) (Float64.finite (1 / 2)) (Float64.finite 1)
    hourlyProvider t0230 sellingFilter hourlyProvider_built rfl rfl

theorem C6_bucket_index_in_range_witness :
    ∃ bi, makeBucketInfo sevenSecondProvider t2359 = Outcome.ret (some bi, none) ∧
      0 ≤ bi.ID ∧ bi.ID < bi.totalBuckets :=
  C6_bucket_index_in_range sevenSecondProvider t2359 sellingFilter
    (by decide) (by decide) rfl rfl

theorem C7_bucket_index_monotone_witness :
    ∃ b1 b2, makeBucketInfo hourlyProvider t0230 = Outcome.ret (some b1, none) ∧
      makeBucketInfo hourlyProvider t2359 = Outcome.ret (some b2, none) ∧ b1.ID ≤ b2.ID :=
  C7_bucket_index_monotone hourlyProvider t0230 t2359 sellingFilter
    (by decide) rfl rfl rfl (by decide) rfl rfl

theorem C8_bucket_arithmetic_witness :
    ∃ bi, makeBucketInfo hourlyProvider t0230 = Outcome.ret (some bi, none) ∧
      bi.ID = 2 ∧ bi.totalBuckets = 24 ∧ bi.secondsElapsed = 9000 := by
  obtain ⟨bi, h1, -, -, -, -, -, -, h8⟩ :=
    C8_bucket_arithmetic hourlyProvider t0230 sellingFilter (by decide) (by decide) rfl rfl
  exact ⟨bi, h1, h8 rfl (by decide)⟩

/-- C9: the secondsElapsed computed by `makeBucketInfo` is the number of seconds since
`floorDate(now)`, the most recent UTC midnight: it lies in [0, 86400), it is 0 exactly when
the clock reads 00:00:00, the day from `floorDate(now)` to `ceilDate(now)` lasts 86400
seconds, and a later instant of the same calendar day has a strictly larger
secondsElapsed. -/
theorem C9_seconds_elapsed {PF RO OC : Type} (p : sellTwapLevelProvider PF RO OC)
    (now : Time) (f : volumeFilter)
    (hp : p.parentBucketSizeSeconds ≠ 0)
    (hf : p.dowFilter.elems[now.Weekday]? = some f)
    (hcap : f.mustGetBaseAssetCapInBaseUnits.2 = none) :
    ∃ bi, makeBucketInfo p now = Outcome.ret (some bi, none) ∧
      bi.secondsElapsed = now.Unix - (floorDate now).Unix ∧
      (floorDate now).Clock = (0, 0, 0) ∧
      (floorDate now).Unix ≤ now.Unix ∧ now.Unix < (ceilDate now).Unix ∧
      0 ≤ bi.secondsElapsed ∧ bi.secondsElapsed < 86400 ∧
      (bi.secondsElapsed = 0 ↔ now.Clock = (0, 0, 0)) ∧
      (ceilDate now).Unix - (floorDate now).Unix = 86400 ∧
      ∀ t2 : Time, now.Year = t2.Year → now.Month = t2.Month → now.Day = t2.Day →
        now.Unix < t2.Unix →
        ∃ b2, makeBucketInfo p t2 = Outcome.ret (some b2, none) ∧
          bi.secondsElapsed < b2.secondsElapsed := by
  have hse := secondsElapsed_eq now
  have hday := secondsToday_eq now
  have hfl := (floorDate_ceilDate_abs now).1
  refine ⟨_, makeBucketInfo_resolved p now f hf hcap hp, hse.symm, ?_, ?_, ?_, ?_, ?_, ?_,
    hday, ?_⟩
  · have := (clock_sum (floorDate now)).2
    rw [hfl] at this
    exact this.1 (by omega)
  · omega
  · omega
  · show (0 : ℤ) ≤ ((now.abs % 86400 : ℕ) : ℤ)
    omega
  · show ((now.abs % 86400 : ℕ) : ℤ) < 86400
    omega
  · show ((now.abs % 86400 : ℕ) : ℤ) = 0 ↔ _
    rw [← (clock_sum now).2]
    omega
  · intro t2 hy hm hd hlt
    have hsame := same_day_number now t2 hy hm hd
    have hf2 : p.dowFilter.elems[t2.Weekday]? = some f := by
      rw [← same_day_weekday now t2 hsame]
      exact hf
    refine ⟨_, makeBucketInfo_resolved p t2 f hf2 hcap hp, ?_⟩
    show ((now.abs % 86400 : ℕ) : ℤ) < ((t2.abs % 86400 : ℕ) : ℤ)
    simp only [Time.Unix] at hlt
    omega

theorem C9_seconds_elapsed_witness :
    ∃ bi, makeBucketInfo hourlyProvider tYearEnd = Outcome.ret (some bi, none) ∧
      bi.secondsElapsed = tYearEnd.Unix - (floorDate tYearEnd).Unix ∧
      (floorDate tYearEnd).Clock = (0, 0, 0) ∧
      (floorDate tYearEnd).Unix ≤ tYearEnd.Unix ∧ tYearEnd.Unix < (ceilDate tYearEnd).Unix ∧
      0 ≤ bi.secondsElapsed ∧ bi.secondsElapsed < 86400 ∧
      (bi.secondsElapsed = 0 ↔ tYearEnd.Clock = (0, 0, 0)) ∧
      (ceilDate tYearEnd).Unix - (floorDate tYearEnd).Unix = 86400 ∧
      ∀ t2 : Time, tYearEnd.Year = t2.Year → tYearEnd.Month = t2.Month →
        tYearEnd.Day = t2.Day → tYearEnd.Unix < t2.Unix →
        ∃ b2, makeBucketInfo hourlyProvider t2 = Outcome.ret (some b2, none) ∧
          bi.secondsElapsed < b2.secondsElapsed :=
  C9_seconds_elapsed hourlyProvider tYearEnd sellingFilter (by decide) rfl rfl

/-- C10: `makeBucketInfo` takes the filter `dowFilter[weekday(now)]`. If the cap of that
filter fails with an error, it returns no `bucketInfo` and an error wrapping it, and
`GetLevels` returns no levels and an error wrapping that one; if the cap resolves, it
returns a nil error and a `bucketInfo` whose volFilter is that filter and whose dailyLimit
is the resolved cap. -/
theorem C10_cap_failure_propagates {PF RO OC : Type} (p : sellTwapLevelProvider PF RO OC)
    (now : Time) (maxAssetBase maxAssetQuote : Float64)
    (hp : p.parentBucketSizeSeconds ≠ 0) :
    ∃ f, p.dowFilter.elems[now.Weekday]? = some f ∧
      ((∃ e, f.mustGetBaseAssetCapInBaseUnits.2 = some e ∧
          makeBucketInfo p now = Outcome.ret (none,
            some (GoError.wrap "could not fetch base asset cap in base units: %s" e)) ∧
          GetLevels p now maxAssetBase maxAssetQuote = Outcome.ret (none,
            some (GoError.wrap "unable to make bucketInfo: %s"
              (GoError.wrap "could not fetch base asset cap in base units: %s" e)))) ∨
       (f.mustGetBaseAssetCapInBaseUnits.2 = none ∧
          ∃ bi, makeBucketInfo p now = Outcome.ret (some bi, none) ∧
            bi.volFilter = f ∧ bi.dailyLimit = f.mustGetBaseAssetCapInBaseUnits.1)) := by
  obtain ⟨f, hf⟩ := dowFilter_lookup p.dowFilter now
  refine ⟨f, hf, ?_⟩
  cases hcap : f.mustGetBaseAssetCapInBaseUnits.2 with
  | some e =>
    left
    have hmk := makeBucketInfo_failed p now f e hf hcap
    refine ⟨e, rfl, hmk, ?_⟩
    simp only [GetLevels, hmk]
  | none =>
    right
    exact ⟨rfl, _, makeBucketInfo_resolved p now f hf hcap hp, rfl, rfl⟩

theorem C10_cap_failure_propagates_witness :
    ∃ f, hourlyProvider.dowFilter.elems[t0230.Weekday]? = some f ∧
      ((∃ e, f.mustGetBaseAssetCapInBaseUnits.2 = some e ∧
          makeBucketInfo hourlyProvider t0230 = Outcome.ret (none,
            some (GoError.wrap "could not fetch base asset cap in base units: %s" e)) ∧
          GetLevels hourlyProvider t0230 (Float64.finite 10) (Float64.finite 20) =
            Outcome.ret (none,
              some (GoError.wrap "unable to make bucketInfo: %s"
                (GoError.wrap "could not fetch base asset cap in base units: %s" e)))) ∨
       (f.mustGetBaseAssetCapInBaseUnits.2 = none ∧
          ∃ bi, makeBucketInfo hourlyProvider t0230 = Outcome.ret (some bi, none) ∧
            bi.volFilter = f ∧ bi.dailyLimit = f.mustGetBaseAssetCapInBaseUnits.1)) :=
  C10_cap_failure_propagates hourlyProvider t0230 (Float64.finite 10) (Float64.finite 20)
    (by decide)

/-! ## Evaluation of the levels -/

/-- When the cap of the filter of the weekday resolves and the bucket size is not zero,
`GetLevels` returns the empty slice and a nil error. -/
theorem GetLevels_resolved {PF RO OC : Type} (p : sellTwapLevelProvider PF RO OC)
    (now : Time) (f : volumeFilter) (maxAssetBase maxAssetQuote : Float64)
    (hp : p.parentBucketSizeSeconds ≠ 0)
    (hf : p.dowFilter.elems[now.Weekday]? = some f)
    (hcap : f.mustGetBaseAssetCapInBaseUnits.2 = none) :
    GetLevels p now maxAssetBase maxAssetQuote = Outcome.ret (some [], none) := by
  simp only [GetLevels, makeBucketInfo_resolved p now f hf hcap hp]

/-- C11: for every maxAssetBase and maxAssetQuote that is not negative, whenever the
cap of the weekday resolves, `GetLevels` returns an empty, non-nil list of levels and a
nil error; the total amount of the levels, 0, exceeds neither maxAssetBase nor
maxAssetQuote; and the result is the same for all other maxAssetBase and maxAssetQuote and
for every other provider and instant whose cap resolves (whatever the daily cap and the
bucket). -/
theorem C11_levels_empty {PF RO OC : Type} (p : sellTwapLevelProvider PF RO OC)
    (now : Time) (f : volumeFilter) (maxAssetBase maxAssetQuote : Float64)
    (hp : p.parentBucketSizeSeconds ≠ 0)
    (hf : p.dowFilter.elems[now.Weekday]? = some f)
    (hcap : f.mustGetBaseAssetCapInBaseUnits.2 = none)
    (hbase : Float64.lt maxAssetBase (Float64.finite 0) = false)
    (hquote : Float64.lt maxAssetQuote (Float64.finite 0) = false) :
    ∃ levels, GetLevels p now maxAssetBase maxAssetQuote = Outcome.ret (some levels, none) ∧
      levels = [] ∧ levels.length = 0 ∧
      totalAmount levels = Float64.finite 0 ∧
      Float64.gt (totalAmount levels) maxAssetBase = false ∧
      Float64.gt (totalAmount levels) maxAssetQuote = false ∧
      (∀ base quote : Float64,
        GetLevels p now base quote = Outcome.ret (some levels, none)) ∧
      (∀ (q : sellTwapLevelProvider PF RO OC) (t : Time) (g : volumeFilter)
        (base quote : Float64),
        q.parentBucketSizeSeconds ≠ 0 → q.dowFilter.elems[t.Weekday]? = some g →
        g.mustGetBaseAssetCapInBaseUnits.2 = none →
        GetLevels q t base quote = Outcome.ret (some levels, none)) := by
  refine ⟨[], GetLevels_resolved p now f _ _ hp hf hcap, rfl, rfl, rfl, hbase, hquote,
    ?_, ?_⟩
  · intro base quote
    exact GetLevels_resolved p now f _ _ hp hf hcap
  · intro q t g base quote hq hg hgcap
    exact GetLevels_resolved q t g _ _ hq hg hgcap

theorem C11_levels_empty_witness :
    ∃ levels, GetLevels hourlyProvider t2359 (Float64.finite 10) (Float64.finite 20) =
        Outcome.ret (some levels, none) ∧
      levels = [] ∧ levels.length = 0 ∧
      totalAmount levels = Float64.finite 0 ∧
      Float64.gt (totalAmount levels) (Float64.finite 10) = false ∧
      Float64.gt (totalAmount levels) (Float64.finite 20) = false ∧
      (∀ base quote : Float64,
        GetLevels hourlyProvider t2359 base quote = Outcome.ret (some levels, none)) ∧
      (∀ (q : sellTwapLevelProvider Unit Unit Unit) (t : Time) (g : volumeFilter)
        (base quote : Float64),
        q.parentBucketSizeSeconds ≠ 0 → q.dowFilter.elems[t.Weekday]? = some g →
        g.mustGetBaseAssetCapInBaseUnits.2 = none →
        GetLevels q t base quote = Outcome.ret (some levels, none)) :=
  C11_levels_empty hourlyProvider t2359 sellingFilter (Float64.finite 10) (Float64.finite 20)
    (by decide) rfl rfl
    (by simp [Float64.lt])
    (by simp [Float64.lt])

/-- With a bucket size other than zero `makeBucketInfo` returns: it does not panic. -/
theorem makeBucketInfo_returns {PF RO OC : Type} (p : sellTwapLevelProvider PF RO OC)
    (now : Time) (hp : p.parentBucketSizeSeconds ≠ 0) :
    ∃ r, makeBucketInfo p now = Outcome.ret r := by
  obtain ⟨f, hf⟩ := dowFilter_lookup p.dowFilter now
  cases hcap : f.mustGetBaseAssetCapInBaseUnits.2 with
  | some e => exact ⟨_, makeBucketInfo_failed p now f e hf hcap⟩
  | none => exact ⟨_, makeBucketInfo_resolved p now f hf hcap hp⟩

/-- The result of `makeBucketInfo` is determined by the instant, the bucket size and the
filter of the weekday with its cap response; no other field of the provider is read. -/
theorem makeBucketInfo_congr {PF RO OC : Type} (p q : sellTwapLevelProvider PF RO OC)
    (now : Time) (hsize : q.parentBucketSizeSeconds = p.parentBucketSizeSeconds)
    (hfilter : q.dowFilter.elems[now.Weekday]? = p.dowFilter.elems[now.Weekday]?) :
    makeBucketInfo q now = makeBucketInfo p now := by
  simp only [makeBucketInfo, hsize, hfilter]

/-- A call of `makeBucketInfo` leaves the receiver as it was. -/
theorem makeBucketInfoStep_receiver {PF RO OC : Type}
    (capLookup : volumeFilter → Float64 × Option GoError)
    (p : sellTwapLevelProvider PF RO OC) (now : Time) :
    (makeBucketInfoStep capLookup p now).1 = p := by
  unfold makeBucketInfoStep
  split
  · rfl
  · split
    · rfl
    · simp only
      split <;> rfl

/-- With the recorded cap responses the step is `makeBucketInfo`. -/
theorem makeBucketInfoStep_recorded {PF RO OC : Type}
    (p : sellTwapLevelProvider PF RO OC) (now : Time) :
    (makeBucketInfoStep recordedLookup p now).2 = makeBucketInfo p now := by
  unfold makeBucketInfoStep makeBucketInfo recordedLookup
  split
  · rfl
  · split
    · rfl
    · simp only
      split <;> rfl

/-- The values `makeBucketInfo` returns depend on the world outside the provider only
through the cap response of the filter of the weekday. -/
theorem makeBucketInfoStep_result {PF RO OC : Type}
    (look1 look2 : volumeFilter → Float64 × Option GoError)
    (p : sellTwapLevelProvider PF RO OC) (now : Time)
    (hsame : ∀ f, p.dowFilter.elems[now.Weekday]? = some f → look1 f = look2 f) :
    (makeBucketInfoStep look2 p now).2 = (makeBucketInfoStep look1 p now).2 := by
  obtain ⟨f, hf⟩ := dowFilter_lookup p.dowFilter now
  have h := hsame f hf
  simp only [makeBucketInfoStep, hf, h]

/-- A call of `GetLevels` leaves the receiver as it was. -/
theorem GetLevelsStep_receiver {PF RO OC : Type}
    (capLookup : volumeFilter → Float64 × Option GoError)
    (p : sellTwapLevelProvider PF RO OC) (now : Time) (maxAssetBase maxAssetQuote : Float64) :
    (GetLevelsStep capLookup p now maxAssetBase maxAssetQuote).1 = p := by
  have h := makeBucketInfoStep_receiver capLookup p now
  unfold GetLevelsStep
  split <;> rename_i heq <;> rw [heq] at h <;> exact h

/-- The values `GetLevels` returns are those of `makeBucketInfo` mapped to levels. -/
theorem GetLevelsStep_result {PF RO OC : Type}
    (look1 look2 : volumeFilter → Float64 × Option GoError)
    (p : sellTwapLevelProvider PF RO OC) (now : Time) (maxAssetBase maxAssetQuote : Float64)
    (hsame : ∀ f, p.dowFilter.elems[now.Weekday]? = some f → look1 f = look2 f) :
    (GetLevelsStep look2 p now maxAssetBase maxAssetQuote).2 =
      (GetLevelsStep look1 p now maxAssetBase maxAssetQuote).2 := by
  have h1 := makeBucketInfoStep_receiver look1 p now
  have h2 := makeBucketInfoStep_receiver look2 p now
  have h3 := makeBucketInfoStep_result look1 look2 p now hsame
  have e1 : makeBucketInfoStep look1 p now = (p, (makeBucketInfoStep look1 p now).2) :=
    Prod.ext h1 rfl
  have e2 : makeBucketInfoStep look2 p now = (p, (makeBucketInfoStep look1 p now).2) :=
    Prod.ext h2 h3
  unfold GetLevelsStep
  rw [e2]
  conv_rhs => rw [e1]

/-- With the recorded cap responses the step is `GetLevels`. -/
theorem GetLevelsStep_recorded {PF RO OC : Type}
    (p : sellTwapLevelProvider PF RO OC) (now : Time) (maxAssetBase maxAssetQuote : Float64) :
    (GetLevelsStep recordedLookup p now maxAssetBase maxAssetQuote).2 =
      GetLevels p now maxAssetBase maxAssetQuote := by
  have e : makeBucketInfoStep recordedLookup p now = (p, makeBucketInfo p now) :=
    Prod.ext (makeBucketInfoStep_receiver recordedLookup p now)
      (makeBucketInfoStep_recorded p now)
  unfold GetLevelsStep GetLevels
  rw [e]
  rcases makeBucketInfo p now with _ | ⟨b, _ | err⟩ <;> rfl

/-- C12: two evaluations of a provider at the same frozen instant, the second on the
receiver as the first leaves it, that get the same response from the cap lookup of the
weekday filter (the responses for every other filter being free to differ) return
identical results: `makeBucketInfo` returns `bucketInfo` values equal in every field and
`GetLevels` identical level lists; and the provider is the same after each call. -/
theorem C12_idempotent {PF RO OC : Type} (p : sellTwapLevelProvider PF RO OC)
    (now : Time) (maxAssetBase maxAssetQuote : Float64)
    (look1 look2 : volumeFilter → Float64 × Option GoError)
    (hsame : ∀ f, p.dowFilter.elems[now.Weekday]? = some f → look1 f = look2 f) :
    (makeBucketInfoStep look1 p now).1 = p ∧
    (makeBucketInfoStep look2 (makeBucketInfoStep look1 p now).1 now).1 = p ∧
    (makeBucketInfoStep look2 (makeBucketInfoStep look1 p now).1 now).2 =
      (makeBucketInfoStep look1 p now).2 ∧
    (∀ b1 : bucketInfo, (makeBucketInfoStep look1 p now).2 = Outcome.ret (some b1, none) →
      ∃ b2 : bucketInfo,
        (makeBucketInfoStep look2 (makeBucketInfoStep look1 p now).1 now).2 =
          Outcome.ret (some b2, none) ∧
        b1.ID = b2.ID ∧ b1.totalBuckets = b2.totalBuckets ∧ b1.now = b2.now ∧
        b1.secondsElapsed = b2.secondsElapsed ∧ b1.volFilter = b2.volFilter ∧
        b1.dailyLimit = b2.dailyLimit) ∧
    (GetLevelsStep look1 p now maxAssetBase maxAssetQuote).1 = p ∧
    (GetLevelsStep look2 (GetLevelsStep look1 p now maxAssetBase maxAssetQuote).1 now
        maxAssetBase maxAssetQuote).1 = p ∧
    (GetLevelsStep look2 (GetLevelsStep look1 p now maxAssetBase maxAssetQuote).1 now
        maxAssetBase maxAssetQuote).2 =
      (GetLevelsStep look1 p now maxAssetBase maxAssetQuote).2 := by
  have hb1 := makeBucketInfoStep_receiver look1 p now
  have hg1 := GetLevelsStep_receiver look1 p now maxAssetBase maxAssetQuote
  have hbr := makeBucketInfoStep_result look1 look2 p now hsame
  have hgr := GetLevelsStep_result look1 look2 p now maxAssetBase maxAssetQuote hsame
  refine ⟨hb1, ?_, ?_, ?_, hg1, ?_, ?_⟩
  · rw [hb1]
    exact makeBucketInfoStep_receiver look2 p now
  · rw [hb1]
    exact hbr
  · intro b1 h1
    refine ⟨b1, ?_, rfl, rfl, rfl, rfl, rfl, rfl⟩
    rw [hb1, hbr]
    exact h1
  · rw [hg1]
    exact GetLevelsStep_receiver look2 p now maxAssetBase maxAssetQuote
  · rw [hg1]
    exact hgr

theorem C12_idempotent_witness :
    (makeBucketInfoStep recordedLookup otherHourlyProvider t0230).1 = otherHourlyProvider ∧
    (makeBucketInfoStep outageLookup
        (makeBucketInfoStep recordedLookup otherHourlyProvider t0230).1 t0230).1 =
      otherHourlyProvider ∧
    (makeBucketInfoStep outageLookup
        (makeBucketInfoStep recordedLookup otherHourlyProvider t0230).1 t0230).2 =
      (makeBucketInfoStep recordedLookup otherHourlyProvider t0230).2 ∧
    (∀ b1 : bucketInfo,
      (makeBucketInfoStep recordedLookup otherHourlyProvider t0230).2 =
        Outcome.ret (some b1, none) →
      ∃ b2 : bucketInfo,
        (makeBucketInfoStep outageLookup
            (makeBucketInfoStep recordedLookup otherHourlyProvider t0230).1 t0230).2 =
          Outcome.ret (some b2, none) ∧
        b1.ID = b2.ID ∧ b1.totalBuckets = b2.totalBuckets ∧ b1.now = b2.now ∧
        b1.secondsElapsed = b2.secondsElapsed ∧ b1.volFilter = b2.volFilter ∧
        b1.dailyLimit = b2.dailyLimit) ∧
    (GetLevelsStep recordedLookup otherHourlyProvider t0230 (Float64.finite 10)
        (Float64.finite 20)).1 = otherHourlyProvider ∧
    (GetLevelsStep outageLookup
        (GetLevelsStep recordedLookup otherHourlyProvider t0230 (Float64.finite 10)
          (Float64.finite 20)).1 t0230 (Float64.finite 10) (Float64.finite 20)).1 =
      otherHourlyProvider ∧
    (GetLevelsStep outageLookup
        (GetLevelsStep recordedLookup otherHourlyProvider t0230 (Float64.finite 10)
          (Float64.finite 20)).1 t0230 (Float64.finite 10) (Float64.finite 20)).2 =
      (GetLevelsStep recordedLookup otherHourlyProvider t0230 (Float64.finite 10)
        (Float64.finite 20)).2 :=
  C12_idempotent otherHourlyProvider t0230 (Float64.finite 10) (Float64.finite 20)
    recordedLookup outageLookup
    (by
      intro f hf
      have h3 : otherHourlyProvider.dowFilter.elems[t0230.Weekday]? = some sellingFilter :=
        rfl
      rw [h3] at hf
      cases hf
      simp [recordedLookup, outageLookup])

/-- C13: the weekday index of every instant lies in 0..6 (a Sunday has index 0 and the
index advances by one, modulo 7, from a day to the next), so the lookup
`dowFilter[now.Weekday()]` finds a filter and does not panic; and for a provider returned
by the factory the filter found reports isSellingBase and `makeBucketInfo` does not
panic. -/
theorem C13_weekday_lookup_in_bounds {PF RO OC : Type} (q : sellTwapLevelProvider PF RO OC)
    (now : Time) :
    now.Weekday < 7 ∧
    (∃ f, q.dowFilter.elems[now.Weekday]? = some f) ∧
    (q.parentBucketSizeSeconds ≠ 0 → makeBucketInfo q now ≠ Outcome.panic) ∧
    tSunday.Weekday = 0 ∧
    (Time.mk (now.abs + 86400) now.nsec).Weekday = (now.Weekday + 1) % 7 ∧
    (∀ (pf : PF) (ro : RO) (oc : OC) (dow : DowFilter) (n b : ℤ) (c s m : Float64),
      makeSellTwapLevelProvider pf ro oc dow n b c s m = (some q, none) →
      ∃ f, q.dowFilter.elems[now.Weekday]? = some f ∧ f.isSellingBase = true ∧
        makeBucketInfo q now ≠ Outcome.panic) := by
  have hnp : q.parentBucketSizeSeconds ≠ 0 → makeBucketInfo q now ≠ Outcome.panic := by
    intro hq
    obtain ⟨r, hr⟩ := makeBucketInfo_returns q now hq
    rw [hr]
    intro h
    cases h
  refine ⟨now.Weekday_lt, dowFilter_lookup q.dowFilter now, hnp, by decide, ?_, ?_⟩
  · simp only [Time.Weekday, secondsPerWeek, secondsPerDay]
    omega
  · intro pf ro oc dow n b c s m hmk
    obtain ⟨f, hf⟩ := dowFilter_lookup q.dowFilter now
    rcases makeSellTwapLevelProvider_cases pf ro oc dow n b c s m with h | h
    · obtain ⟨-, hb, -, -, -, -, hall, heq⟩ := h
      rw [heq] at hmk
      simp only [Prod.mk.injEq, Option.some.injEq, and_true] at hmk
      subst hmk
      refine ⟨f, hf, hall f ?_, hnp (by show b ≠ 0; omega)⟩
      obtain ⟨hlt, hget⟩ := List.getElem?_eq_some_iff.1 hf
      rw [← hget]
      exact List.getElem_mem hlt
    · obtain ⟨-, e, he⟩ := h
      rw [he] at hmk
      cases hmk

theorem C13_weekday_lookup_in_bounds_witness :
    ∃ f, hourlyProvider.dowFilter.elems[tYearEnd.Weekday]? = some f ∧
      f.isSellingBase = true ∧ makeBucketInfo hourlyProvider tYearEnd ≠ Outcome.panic :=
  (C13_weekday_lookup_in_bounds hourlyProvider tYearEnd).2.2.2.2.2 () () () sellingWeek
    24 3600 (Float64.finite 0) (Float64.finite (1 / 2)) (Float64.finite 1)
    hourlyProvider_built

end Kelp
